import Mathlib

/-!
Verification of the "auditoria" accounting pipeline (Argentine payroll
reconciliation: F.931 / Borrador / Asiento → consolidated JSON → Excel).

Shallow embedding of the repository's Python modules:
  * `utils/pdf_text.py`           — `normalize_number`, `extract_text`
  * `app.py` / `backend/core/pipeline.py` — HTTP endpoint call shape, type
    detection, parser dispatch
  * `backend/core/normalizer/*`   — matcher engine, base normalizer, base
    indexer, consolidator (v1/v2)
  * `excel/excel_loader.py`, `backend/core/excel/excel_batch_loader.py`
    — cell-write guards, month-column detection, batch idempotence
  * `orchestrators/orchestrator_a.py` — output-directory JSON cleanup
  * `parsers/asiento_parser.py`   — exception-propagation skeleton

Python dynamic values are modelled by `PyVal`; machine floats by `ℚ`
(the repository compares amounts by decimal literal equality, which the
rational embedding reproduces exactly); raised exceptions by
`Option`/`Except`; dicts by association lists with Python's
insert-or-overwrite semantics.
-/

namespace Auditoria

/-- Python runtime values, as far as the claims need them:
`None`, numbers (int/float unified as `ℚ`), strings, and `datetime`
header cells (year/month/day). -/
inductive PyVal where
  | vNone : PyVal
  | vNum (q : ℚ) : PyVal
  | vStr (s : String) : PyVal
  | vDate (y m d : Nat) : PyVal
deriving DecidableEq, Repr

/-- `isinstance(x, (int, float))` for a `PyVal`. -/
def PyVal.isNumeric : PyVal → Bool
  | .vNum _ => true
  | _ => false

/- ── Character-level models of the Python `str` operations used by the
     sources.  They are written over `List Char` so that every proof
     obligation kernel-reduces (`decide`/`rfl`). ── -/

/-- Python whitespace for `str.strip()` (ASCII subset, which is all the
sources ever feed it). -/
def isPySpace (c : Char) : Bool :=
  c = ' ' ∨ c = '\t' ∨ c = '\n' ∨ c = '\r' ∨ c = '\x0b' ∨ c = '\x0c'

/-- `str.strip()`: drop whitespace from both ends. -/
def pyStrip (l : List Char) : List Char :=
  ((l.dropWhile isPySpace).reverse.dropWhile isPySpace).reverse

/-- `str.replace(c, "")` for a single character. -/
def removeChar (c : Char) (l : List Char) : List Char :=
  l.filter (fun x => x ≠ c)

/-- `str.lstrip(c)` for a single strip character. -/
def lstripChar (c : Char) (l : List Char) : List Char :=
  l.dropWhile (fun x => x = c)

/-- `str.split(".")`: split on a character, keeping empty groups. -/
def splitOnChar (c : Char) : List Char → List (List Char)
  | [] => [[]]
  | x :: xs =>
    let rest := splitOnChar c xs
    if x = c then [] :: rest
    else
      match rest with
      | [] => [[x]]
      | g :: gs => (x :: g) :: gs

/-- ASCII `str.lower()` (the repository only compares ASCII keywords). -/
def lowerChar (c : Char) : Char :=
  if 'A' ≤ c ∧ c ≤ 'Z' then Char.ofNat (c.toNat + 32) else c

def pyLower (l : List Char) : List Char := l.map lowerChar

/-- Numeric value of a digit string (caller guarantees digits only). -/
def digitsToNat (l : List Char) : Nat :=
  l.foldl (fun acc c => acc * 10 + (c.toNat - 48)) 0

/-- Python `float(s)` on a plain non-negative decimal string
(`digits* ['.' digits*]`, at least one digit): the only shapes reachable
from `normalize_number` after cleaning.  Anything else raises
`ValueError`, modelled as `none`. -/
def parseDecimal (l : List Char) : Option ℚ :=
  match splitOnChar '.' l with
  | [a] =>
    if a ≠ [] ∧ a.all Char.isDigit then some (mkRat (digitsToNat a) 1) else none
  | [a, b] =>
    if (a ≠ [] ∨ b ≠ []) ∧ a.all Char.isDigit ∧ b.all Char.isDigit then
      some (mkRat (digitsToNat a * 10 ^ b.length + digitsToNat b) (10 ^ b.length))
    else none
  | _ => none

/-- `utils/pdf_text.py::normalize_number` — converts an Argentine-format
amount to a float, returning `None` (absent) for empty/dash fields and
on parse failure.  Faithful step-for-step transcription of the source:
trim and delete spaces; empty-field sentinels; strip `$`; sentinel check
again; strip the sign; if a comma is present drop the dots and turn the
comma into a decimal point, otherwise drop dots only when every group
after the first has exactly three digits; finally `float(...)`. -/
def normalize_number (raw : String) : Option ℚ :=
  if raw = "" then none else
  let cleaned := removeChar ' ' (pyStrip raw.data)
  if cleaned = [] ∨ cleaned = ['-'] ∨ cleaned = ['$', '-'] ∨ cleaned = ['$']
      ∨ cleaned = ['—'] then none else
  let cleaned := pyStrip (lstripChar '$' cleaned)
  if cleaned = [] ∨ cleaned = ['-'] ∨ cleaned = ['—'] then none else
  let negative := cleaned.head? = some '-'
  let cleaned := pyStrip (lstripChar '-' cleaned)
  let cleaned :=
    if cleaned.contains ',' then
      (removeChar '.' cleaned).map (fun c => if c = ',' then '.' else c)
    else
      let parts := splitOnChar '.' cleaned
      if parts.length > 1 ∧ (parts.drop 1).all (fun p => p.length = 3) then
        removeChar '.' cleaned
      else cleaned
  match parseDecimal cleaned with
  | some v => some (if negative then -v else v)
  | none => none

/- ── Python dicts as association lists (insert-or-overwrite, ordered) ── -/

/-- Python `d[k] = v`: overwrite the existing binding in place, else
append at the end (dicts preserve insertion order). -/
def pyDictInsert {β : Type} : List (String × β) → String → β → List (String × β)
  | [], k, v => [(k, v)]
  | (k', v') :: rest, k, v =>
    if k' = k then (k, v) :: rest else (k', v') :: pyDictInsert rest k v

/-- Python `d.get(k)`. -/
def pyGet {β : Type} : List (String × β) → String → Option β
  | [], _ => none
  | (k', v) :: rest, k => if k' = k then some v else pyGet rest k

/- ── `app.py::process_endpoint` → `process_period` call shape ── -/

/-- The parameters declared by
`backend/core/pipeline.py::process_period(pdf_paths, period,
template_path=None, output_dir=None)`. -/
def processPeriodParams : List String :=
  ["pdf_paths", "period", "template_path", "output_dir"]

/-- The keyword arguments `app.py::process_endpoint` passes in its
`process_period(pdf_paths=..., period="2025-05", existing_excel=...)`
call. -/
def processEndpointKwargs : List String :=
  ["pdf_paths", "period", "existing_excel"]

/-- A Python call binds without `TypeError` only when every keyword
argument names a declared parameter. -/
def pythonCallBinds (params kwargs : List String) : Bool :=
  kwargs.all (fun k => params.contains k)

/- ── `backend/core/pipeline.py`: type detection and parser dispatch ── -/

/-- Python `sub in s` on strings: contiguous-substring test. -/
def listHas : List Char → List Char → Bool
  | [], sub => sub.isEmpty
  | c :: t, sub => sub.isPrefixOf (c :: t) || listHas t sub

/-- `pipeline.py::_detect_type`: classify a PDF by lowercase filename
keyword; the `"f931" or "931"` test runs before `"borrador" or
"borra"`, which runs before `"asiento"`. -/
def detectType (filename : String) : Option String :=
  let name := pyLower filename.data
  if listHas name "f931".data || listHas name "931".data then some "f931"
  else if listHas name "borrador".data || listHas name "borra".data then some "borrador"
  else if listHas name "asiento".data then some "asiento"
  else none

/-- `pipeline.py::_run_parsers` loop: `results[doc_type] = parser_json`,
skipping undetected files.  `parseFn t p` stands for
`_PARSERS[t](str(p))`. -/
def runParsersAux {α : Type} (parseFn : String → String → α)
    (acc : List (String × α)) : List String → List (String × α)
  | [] => acc
  | p :: rest =>
    match detectType p with
    | none => runParsersAux parseFn acc rest
    | some t => runParsersAux parseFn (pyDictInsert acc t (parseFn t p)) rest

def runParsers {α : Type} (parseFn : String → String → α)
    (paths : List String) : List (String × α) :=
  runParsersAux parseFn [] paths

/- ── `orchestrators/orchestrator_a.py`: effect of a multi-period run on
     the shared output directory's file set ── -/

/-- `Path.glob("*.json")` membership: the filename ends in `.json`. -/
def matchesJsonGlob (f : String) : Bool :=
  decide (".json".data <:+ f.data)

/-- `OrchestratorA._clean_output_jsons`: unlink every `*.json` file of
the output directory. -/
def cleanOutputJsons (files : List String) : List String :=
  files.filter (fun f => !matchesJsonGlob f)

def consolidatedName (p : String) : String := "consolidated_" ++ p ++ ".json"

def manifestName (p : String) : String := "sources_manifest_" ++ p ++ ".json"

/-- `OrchestratorA._execute_pipeline` on a valid bundle (success path),
as it affects the output directory's files: step 1 cleans every `*.json`;
the parser/normalizer stages then write this period's intermediate JSONs
(`stageJsons p`), the consolidator writes `consolidated_{p}.json`
(verified to exist at step 5), and step 6 writes the manifest. -/
def executePipeline (stageJsons : String → List String)
    (files : List String) (p : String) : List String :=
  cleanOutputJsons files ++ stageJsons p ++ [consolidatedName p, manifestName p]

/-- `OrchestratorA.run` over the valid bundles' periods, in scan order
(each processed bundle assumed successful). -/
def orchestratorRun (stageJsons : String → List String) :
    List String → List String → List String
  | files, [] => files
  | files, p :: rest =>
    orchestratorRun stageJsons (executePipeline stageJsons files p) rest

/- ── `backend/core/normalizer/models.py` (the `meta` dict of
     `IndexedSource`, unused by any claim, is omitted) ── -/

structure IndexedItem where
  json_path : String
  label : Option String
  /-- Declared `float` in the dataclass, but the normalizer re-checks
  `isinstance(value, (int, float))` defensively, so the dynamic type is
  kept. -/
  value : PyVal
  raw : String
  codigo : Option String
  attributes : List (String × PyVal)
deriving DecidableEq, Repr

structure IndexedSource where
  source : String
  periodo : Option String
  items : List IndexedItem
deriving DecidableEq, Repr

structure CanonicalConceptEvidence where
  label_original : Option String
  codigo : Option String
  json_path : String
  raw : String
  attributes : List (String × PyVal)
deriving DecidableEq, Repr

structure CanonicalConceptValue where
  valor : PyVal
  evidencia : CanonicalConceptEvidence
deriving DecidableEq, Repr

/-- `dictionary_loader.py::MatcherDef`. -/
structure MatcherDef where
  type : String
  value : String
  attributes_filter : Option (List (String × PyVal))
  case_sensitive : Bool
deriving DecidableEq, Repr

/-- `dictionary_loader.py::ConceptDef` (the fields `tolerancia`, `tipo`,
`categoria` and `resolution_hint` are parsed but never read by any
matching/normalization/consolidation logic, so they are omitted). -/
structure ConceptDef where
  key : String
  obligatorio : Bool
  matchers : List (String × List MatcherDef)
deriving DecidableEq, Repr

/-- The structured warning records the normalizer emits
(`base.py::BaseNormalizer.normalize`). -/
structure MatchSummary where
  label : Option String
  codigo : Option String
  json_path : String
deriving DecidableEq, Repr

inductive NormWarning where
  | invalidValueType (concept : String) (json_path : String) (value_type : String)
  | duplicateCanonicalKey (concept : String)
  | ambiguousMatch (concept : String) (count : Nat) (candidates : List MatchSummary)
  | missingRequired (concept : String)
deriving DecidableEq, Repr

structure CanonicalSourceModel where
  source : String
  periodo : Option String
  conceptos : List (String × CanonicalConceptValue)
  variables_contables : List (String × PyVal)
  warnings : List NormWarning
deriving DecidableEq, Repr

/-- `type(x).__name__`. -/
def pyTypeName : PyVal → String
  | .vNone => "NoneType"
  | .vNum _ => "float"
  | .vStr _ => "str"
  | .vDate _ _ _ => "datetime"

/- ── `backend/core/normalizer/matchers.py` ── -/

/-- `matchers.py::_attributes_match`: `if not filt: return True`, then
every filter key must be present with an exactly equal value
(`item_attrs.get(k) != v` — a missing key reads as `None`). -/
def attributesMatch (itemAttrs : List (String × PyVal))
    (filt : Option (List (String × PyVal))) : Bool :=
  match filt with
  | none => true
  | some f => f.all (fun kv => (pyGet itemAttrs kv.1).getD PyVal.vNone = kv.2)

/-- `matchers.py::matcher_matches`.  An unsupported matcher type raises
`ValueError`, modelled as `none`.  The `regex` arm performs
`re.search(value, label, re.IGNORECASE)`; the dictionary's patterns are
plain words, for which the search is exactly a case-insensitive
substring test, which is how it is modelled here. -/
def matcherMatches (item : IndexedItem) (m : MatcherDef) : Option Bool :=
  if attributesMatch item.attributes m.attributes_filter = false then some false
  else
    let t := pyStrip (pyLower m.type.data)
    if t = "equals".data then
      some (if m.case_sensitive then decide (item.label = some m.value)
            else decide (pyLower (item.label.getD "").data = pyLower m.value.data))
    else if t = "regex".data then
      some (listHas (pyLower (item.label.getD "").data) (pyLower m.value.data))
    else if t = "codigo".data then
      some (decide (item.codigo = some m.value) || decide (item.label = some m.value))
    else if t = "json_path".data then
      some (decide (item.json_path = m.value))
    else none

/- ── `backend/core/normalizer/normalizers/base.py` ── -/

/-- Inner loop of `BaseNormalizer._find_matches`: try the matchers in
order, stopping at the first hit (`break`); a raised `ValueError`
propagates (`none`). -/
def itemMatchesAny (item : IndexedItem) : List MatcherDef → Option Bool
  | [] => some false
  | m :: rest =>
    match matcherMatches item m with
    | none => none
    | some true => some true
    | some false => itemMatchesAny item rest

def findMatchesGo (matchers : List MatcherDef) :
    List IndexedItem → Option (List IndexedItem)
  | [] => some []
  | it :: rest =>
    match itemMatchesAny it matchers with
    | none => none
    | some b =>
      match findMatchesGo matchers rest with
      | none => none
      | some tail => some (if b then it :: tail else tail)

/-- `BaseNormalizer._find_matches`: every item matching any matcher, in
item order, each item counted once. -/
def findMatches (items : List IndexedItem) (matchers : List MatcherDef) :
    Option (List IndexedItem) :=
  if matchers = [] then some [] else findMatchesGo matchers items

def summaryOf (it : IndexedItem) : MatchSummary :=
  { label := it.label, codigo := it.codigo, json_path := it.json_path }

/-- Concept loop of `BaseNormalizer.normalize`: exactly one match →
record the value (after the numeric-type and duplicate-key guards);
more than one match → emit `AMBIGUOUS_MATCH` with the count and the
first 10 candidate summaries, record nothing; zero matches → emit
`MISSING_REQUIRED` when the concept is `obligatorio`. -/
def normalizeLoop (source : String) (items : List IndexedItem) :
    List (String × ConceptDef) →
    List (String × CanonicalConceptValue) → List NormWarning →
    Option (List (String × CanonicalConceptValue) × List NormWarning)
  | [], conceptos, warnings => some (conceptos, warnings)
  | (key, cdef) :: rest, conceptos, warnings =>
    let matchers := (pyGet cdef.matchers source).getD []
    match findMatches items matchers with
    | none => none
    | some found =>
      match found with
      | [item] =>
        if item.value.isNumeric = false then
          normalizeLoop source items rest conceptos
            (warnings ++ [.invalidValueType key item.json_path (pyTypeName item.value)])
        else if (pyGet conceptos key).isSome then
          normalizeLoop source items rest conceptos
            (warnings ++ [.duplicateCanonicalKey key])
        else
          normalizeLoop source items rest
            (pyDictInsert conceptos key
              { valor := item.value,
                evidencia :=
                  { label_original := item.label, codigo := item.codigo,
                    json_path := item.json_path, raw := item.raw,
                    attributes := item.attributes } })
            warnings
      | [] =>
        if cdef.obligatorio then
          normalizeLoop source items rest conceptos
            (warnings ++ [.missingRequired key])
        else
          normalizeLoop source items rest conceptos warnings
      | ms =>
        normalizeLoop source items rest conceptos
          (warnings ++ [.ambiguousMatch key ms.length ((ms.take 10).map summaryOf)])

/-- `BaseNormalizer.normalize`: source mismatch raises `ValueError`
(`none`); `_build_variables_contables` returns `[]` in the base class. -/
def normalize (sourceName : String) (indexed : IndexedSource)
    (dict : List (String × ConceptDef)) : Option CanonicalSourceModel :=
  if indexed.source ≠ sourceName then none
  else
    match normalizeLoop sourceName indexed.items dict [] [] with
    | none => none
    | some (conceptos, warnings) =>
      some { source := indexed.source, periodo := indexed.periodo,
             conceptos := conceptos, variables_contables := [],
             warnings := warnings }

/-- The `AMBIGUOUS_MATCH` warnings citing a given concept key. -/
def isAmbiguousFor (key : String) : NormWarning → Bool
  | .ambiguousMatch c _ _ => c = key
  | _ => false

/-- Concept of the warning record (every record carries its concept). -/
def warningConcept : NormWarning → String
  | .invalidValueType c _ _ => c
  | .duplicateCanonicalKey c => c
  | .ambiguousMatch c _ _ => c
  | .missingRequired c => c

/- ── `backend/core/normalizer/consolidator.py` ── -/

def SOURCE_PRIORITY : List String := ["f931", "borrador", "asiento"]

/-- Python `float(x)` on a dynamic value: floats pass through; strings
parse as a signed decimal after stripping whitespace; `None` raises
`TypeError`, everything else `ValueError` (`none`). -/
def pyFloat : PyVal → Option ℚ
  | .vNum q => some q
  | .vStr s =>
    match pyStrip s.data with
    | '-' :: r => (parseDecimal r).map (fun v => -v)
    | '+' :: r => parseDecimal r
    | r => parseDecimal r
  | _ => none

/-- `{s.source: s for s in sources_canonical}`. -/
def canonByName (sources : List CanonicalSourceModel) :
    List (String × CanonicalSourceModel) :=
  sources.foldl (fun acc s => pyDictInsert acc s.source s) []

/-- `ConsolidatorV2._resolve_concept` (same algorithm as v1's): walk the
priority list; the first source that is present, has `key` in its
`conceptos` map, and whose value `float(...)`-casts, supplies the value
and its name; a missing source / missing key / failed cast falls through
to the next source (`continue`). -/
def resolveConcept (canon : List (String × CanonicalSourceModel))
    (key : String) : List String → Option (ℚ × String)
  | [] => none
  | src :: rest =>
    match pyGet canon src with
    | none => resolveConcept canon key rest
    | some model =>
      match pyGet model.conceptos key with
      | none => resolveConcept canon key rest
      | some concept =>
        match pyFloat concept.valor with
        | some v => some (v, src)
        | none => resolveConcept canon key rest

/-- What a single source supplies for a key, stated from the spec's
words (§4.7): the source "both (a) has the key in its `conceptos` map
and (b) whose value casts to float". -/
def suppliesValue (canon : List (String × CanonicalSourceModel))
    (key src : String) : Option ℚ :=
  match pyGet canon src with
  | none => none
  | some model =>
    match pyGet model.conceptos key with
    | none => none
    | some concept => pyFloat concept.valor

structure ConsolidatedCanonicalBlock where
  periodo : String
  conceptos : List (String × ℚ)
  origen_por_concepto : List (String × String)
  faltantes : List String
deriving DecidableEq, Repr

/-- Concept loop of `ConsolidatorV2._build_canonical_block`. -/
def buildCanonicalBlockLoop (canon : List (String × CanonicalSourceModel)) :
    List String → ConsolidatedCanonicalBlock → ConsolidatedCanonicalBlock
  | [], b => b
  | key :: rest, b =>
    match resolveConcept canon key SOURCE_PRIORITY with
    | some (v, origin) =>
      buildCanonicalBlockLoop canon rest
        { b with conceptos := pyDictInsert b.conceptos key v,
                 origen_por_concepto :=
                   pyDictInsert b.origen_por_concepto key origin }
    | none =>
      buildCanonicalBlockLoop canon rest
        { b with faltantes := b.faltantes ++ [key] }

/-- `ConsolidatorV2._build_canonical_block`. -/
def buildCanonicalBlock (canon : List (String × CanonicalSourceModel))
    (conceptKeys : List String) (periodoIso : String) :
    ConsolidatedCanonicalBlock :=
  buildCanonicalBlockLoop canon conceptKeys
    { periodo := periodoIso, conceptos := [], origen_por_concepto := [],
      faltantes := [] }

/- ── `backend/core/normalizer/indexers/base.py` ── -/

/-- A candidate handed by a subclass `_index_items` enumeration to
`BaseIndexer._make_item`. -/
structure IndexCandidate where
  json_path : String
  label : Option String
  value : PyVal
  raw : String
  codigo : Option String
  attributes : List (String × PyVal)
deriving DecidableEq, Repr

/-- `BaseIndexer._make_item`: `value is None or not isinstance(value,
(int, float))` drops the candidate; otherwise the item carries
`float(value)`. -/
def makeItem (c : IndexCandidate) : Option IndexedItem :=
  match c.value with
  | PyVal.vNum q =>
    some (IndexedItem.mk c.json_path c.label (PyVal.vNum q) c.raw c.codigo
      c.attributes)
  | _ => none

/-- Dedup loop of `BaseIndexer.index` (`seen` dict keyed by
`json_path`): keep the first item per path. -/
def dedupByPath (seen : List String) : List IndexedItem → List IndexedItem
  | [] => []
  | it :: rest =>
    if it.json_path ∈ seen then dedupByPath seen rest
    else it :: dedupByPath (it.json_path :: seen) rest

/-- `BaseIndexer.index` as it acts on the candidates the subclass
`_index_items` enumerates (every subclass appends `_make_item` results,
skipping `None`): drop non-numeric candidates, then dedup by
`json_path`, first occurrence winning.  The `periodo`/`meta` extraction
does not affect the item list and is not modelled. -/
def indexSource (source : String) (periodo : Option String)
    (cands : List IndexCandidate) : IndexedSource :=
  IndexedSource.mk source periodo (dedupByPath [] (cands.filterMap makeItem))

/- ── `excel/excel_loader.py` (cell writes, month-column detection) and
     `backend/core/excel/excel_batch_loader.py::build_year` ── -/

/-- An openpyxl cell: a formula (`data_type == "f"`) or a plain value. -/
inductive Cell where
  | formula (src : String)
  | val (v : PyVal)
deriving DecidableEq, Repr

def Cell.isFormula : Cell → Bool
  | .formula _ => true
  | _ => false

/-- `cell.value in (None, "", 0)` — the zero-regression guard's notion
of an empty-or-zero cell (a formula cell's `.value` is its formula
text, which is none of these). -/
def Cell.isEmptyOrZero : Cell → Bool
  | .val .vNone => true
  | .val (.vStr s) => s = ""
  | .val (.vNum q) => q = 0
  | _ => false

/-- Python truthiness of `concepto_cell.value`
(`if not concepto_cell.value: continue`). -/
def Cell.isTruthy : Cell → Bool
  | .val .vNone => false
  | .val (.vStr s) => !(s = "")
  | .val (.vNum q) => !(q = 0)
  | .val (.vDate _ _ _) => true
  | .formula _ => true

/-- `str(concepto_cell.value).strip()` — the text handed to
`resolve_analisis_value`.  Strings render as themselves; the exact
`str()` rendering of the other shapes does not matter to any claim
(only its stability across runs does). -/
def Cell.labelText : Cell → String
  | .formula f => String.mk (pyStrip f.data)
  | .val .vNone => "None"
  | .val (.vStr s) => String.mk (pyStrip s.data)
  | .val (.vNum q) => toString q
  | .val (.vDate y m d) => toString y ++ "-" ++ toString m ++ "-" ++ toString d

/-- `isinstance(value, (int, float)) and value == 0`. -/
def isNumZero : PyVal → Bool
  | .vNum q => q = 0
  | _ => false

/-- One attempted cell write of `ExcelLoader._write_931`'s loop body:
skip formulas; skip a zero over a non-empty, non-zero cell; skip
`None`; otherwise set the value. -/
def writeStep931 (cell : Cell) (value : PyVal) : Cell :=
  if cell.isFormula then cell
  else if isNumZero value && !cell.isEmptyOrZero then cell
  else if value = PyVal.vNone then cell
  else Cell.val value

/-- A worksheet: cell contents indexed by (row, column). -/
def Sheet : Type := Nat → Nat → Cell

def setCell (s : Sheet) (r c : Nat) (cell : Cell) : Sheet :=
  fun r' c' => if r' = r ∧ c' = c then cell else s r' c'

/-- One resolved "931" mapping entry as returned by
`ExcelMapper.get_931_values` (row, column, value). -/
structure Item931 where
  row : Nat
  col : Nat
  value : PyVal
deriving DecidableEq, Repr

/-- `ExcelLoader._write_931`: the guarded write for each resolved
entry, in order (a skip leaves the cell's content in place). -/
def write931 (s : Sheet) : List Item931 → Sheet
  | [] => s
  | it :: rest =>
    write931 (setCell s it.row it.col (writeStep931 (s it.row it.col) it.value))
      rest

/-- The loop body of `ExcelLoader._write_analisis_general` for one row,
as the resulting content of its target cell `(row, month_col)`, in terms
of the two cells it reads: the column-B label cell and the target cell.
Every `continue` (empty label, formula target, unresolved value, zero
over a non-empty non-zero cell) leaves the target cell's content in
place; otherwise the resolved value is set.  `resolve row text` models
`mapper.resolve_analisis_value(row, text)` — a pure function of the
consolidated JSON and the mapping YAMLs. -/
def agRowCellResult (resolve : Nat → String → Option PyVal) (row : Nat)
    (concepto target : Cell) : Cell :=
  if concepto.isTruthy = false then target
  else if target.isFormula then target
  else
    match resolve row concepto.labelText with
    | none => target
    | some v =>
      if isNumZero v && !target.isEmptyOrZero then target
      else Cell.val v

/-- One row of `_write_analisis_general` as a sheet transformation (a
skipped row writes the unchanged content back, which is the identity on
the sheet's contents). -/
def writeAGRow (resolve : Nat → String → Option PyVal) (col : Nat)
    (s : Sheet) (row : Nat) : Sheet :=
  setCell s row col (agRowCellResult resolve row (s row 2) (s row col))

def writeAGRows (resolve : Nat → String → Option PyVal) (col : Nat) :
    Sheet → List Nat → Sheet
  | s, [] => s
  | s, r :: rest => writeAGRows resolve col (writeAGRow resolve col s r) rest

/-- `FIRST_DATA_ROW = 8` through `LAST_DATA_ROW = 38`. -/
def agDataRows : List Nat := List.range' 8 31

def writeAnalisisGeneral (resolve : Nat → String → Option PyVal)
    (col : Nat) (s : Sheet) : Sheet :=
  writeAGRows resolve col s agDataRows

/-- `isinstance(val, datetime) and val.year == year and val.month ==
month` on a header cell. -/
def headerMatches (year month : Nat) : Cell → Bool
  | .val (.vDate y m _) => y = year && m = month
  | _ => false

/-- `ExcelLoader._detect_analisis_column`: scan the target workbook's
"Analisis General" header row (row 7, columns `1..maxCol` as openpyxl
iterates `ws[7]`) for a date cell matching the period; else the
template-anchor fallback (`Títulos!B3` a date ⇒ `month + 3`, valid only
in 4..15); else raise (`none`). -/
def detectAnalisisColumn (ag : Sheet) (year month maxCol : Nat)
    (anchorIsDate : Bool) : Option Nat :=
  match (List.range' 1 maxCol).find?
      (fun c => headerMatches year month (ag 7 c)) with
  | some c => some c
  | none =>
    if anchorIsDate && (4 ≤ month + 3 && month + 3 ≤ 15) then some (month + 3)
    else none

structure Workbook where
  s931 : Sheet
  ag : Sheet

/- ── `parsers/asiento_parser.py::parse`: exception-propagation
     skeleton ── -/

/-- Outcome of each extraction helper on a given PDF: the value the
pure, regex-driven Python helper would return, or the exception it would
raise there.  The claim is about `parse`'s guarding structure, so these
outcomes are the model's inputs. -/
structure AsientoStepOutcomes where
  /-- `extract_text_pdfplumber` (raises e.g. on a missing file). -/
  plumber : Except String (List String × Nat)
  /-- `extract_text_pymupdf`, the fallback. -/
  mupdf : Except String (List String × Nat)
  /-- `_extract_campos_principales(lines_clean)` → `(campos, warnings)`. -/
  campos : Except String (List (String × Option ℚ) × List String)
  /-- `_extract_debe_haber_table(...)` (which internally falls back from
  coordinates to plain lines) → rows of (descripcion, debe, haber). -/
  debeHaber : Except String (List (String × Option ℚ × Option ℚ))
  /-- `_extract_conceptos_dinamicos(...)` → `(conceptos, warnings)`. -/
  conceptosDin : Except String (List (String × ℚ) × List String)

/-- `utils/pdf_text.py::extract_text`: try pdfplumber; any failure falls
back to pymupdf — whose own failure propagates uncaught. -/
def extract_text (plumber mupdf : Except String (List String × Nat)) :
    Except String (List String × Nat) :=
  match plumber with
  | .ok r => .ok r
  | .error _ => mupdf

structure AsientoParsed where
  schema_version : String
  campos_principales : List (String × Option ℚ)
  debe_haber : List (String × Option ℚ × Option ℚ)
  conceptos_dinamicos : List (String × ℚ)
  warnings : List String
  text_excerpt : List String
  pages_detected : Nat
  parser_version : String
deriving DecidableEq, Repr

/-- `asiento_parser.py::parse`: the `extract_text` call at the top is
NOT guarded — its exception propagates to the caller — while each of the
three extraction steps below it sits in its own `try/except` that logs a
warning and leaves that sub-section empty (`{}` / missing table / `[]`),
letting the document still be returned. -/
def parseAsiento (o : AsientoStepOutcomes) : Except String AsientoParsed :=
  match extract_text o.plumber o.mupdf with
  | .error e => .error e
  | .ok (lines, numPages) =>
    let camposR :=
      match o.campos with
      | .ok r => r
      | .error _ => ([], [])
    let debeHaber :=
      match o.debeHaber with
      | .ok r => r
      | .error _ => []
    let conceptosR :=
      match o.conceptosDin with
      | .ok r => r
      | .error _ => ([], [])
    .ok {
      schema_version := "1.0.0",
      campos_principales := camposR.1,
      debe_haber := debeHaber,
      conceptos_dinamicos := conceptosR.1,
      warnings := camposR.2 ++ conceptosR.2,
      text_excerpt := lines.take 30,
      pages_detected := numPages,
      parser_version := "1.0.0" }

/-- `ExcelLoader._process_workbook` body, which is also what
`ExcelBatchLoader.build_year` runs per period on the one open workbook:
detect the month column against the target workbook (raising ⇒ `none`),
write the "931" sheet, write the "Analisis General" sheet. -/
def processWorkbook (items : List Item931)
    (resolve : Nat → String → Option PyVal) (year month maxCol : Nat)
    (anchorIsDate : Bool) (wb : Workbook) : Option Workbook :=
  match detectAnalisisColumn wb.ag year month maxCol anchorIsDate with
  | none => none
  | some col =>
    some (Workbook.mk (write931 wb.s931 items)
      (writeAnalisisGeneral resolve col wb.ag))

end Auditoria

namespace Auditoria

theorem pyGet_pyDictInsert_self {β : Type} (m : List (String × β)) (k : String) (v : β) :
    pyGet (pyDictInsert m k v) k = some v := by
  induction m with
  | nil => simp [pyDictInsert, pyGet]
  | cons hd tl ih =>
    obtain ⟨k', v'⟩ := hd
    by_cases h : k' = k <;> simp [pyDictInsert, pyGet, h, ih]

theorem pyGet_pyDictInsert_ne {β : Type} (m : List (String × β)) (k k' : String)
    (v : β) (h : k' ≠ k) : pyGet (pyDictInsert m k' v) k = pyGet m k := by
  induction m with
  | nil => simp [pyDictInsert, pyGet, h]
  | cons hd tl ih =>
    obtain ⟨k₀, v₀⟩ := hd
    by_cases h0 : k₀ = k' <;> simp [pyDictInsert, pyGet, h0, h, ih]

theorem runParsersAux_pyGet {α : Type} (parseFn : String → String → α) (t : String) :
    ∀ (paths : List String) (acc : List (String × α)),
      pyGet (runParsersAux parseFn acc paths) t =
        match (paths.filter (fun p => detectType p = some t)).getLast? with
        | some p => some (parseFn t p)
        | none => pyGet acc t := by
  intro paths
  induction paths with
  | nil => intro acc; simp [runParsersAux]
  | cons p rest ih =>
    intro acc
    cases hdt : detectType p with
    | none =>
      have hne : ¬ (detectType p = some t) := by simp [hdt]
      simp only [runParsersAux, hdt, List.filter_cons,
        decide_eq_true_eq, hne, if_false]
      exact ih acc
    | some t' =>
      by_cases heq : t' = t
      · subst heq
        simp only [runParsersAux, hdt, List.filter_cons, decide_eq_true_eq,
          Option.some.injEq, if_pos rfl]
        rw [ih]
        cases hf : rest.filter (fun p => detectType p = some t') with
        | nil => simp [pyGet_pyDictInsert_self]
        | cons q qs =>
          have hs : (q :: qs).getLast?.isSome := by
            simp [List.getLast?_isSome]
          cases hlast : (q :: qs).getLast? with
          | none => rw [hlast] at hs; simp at hs
          | some r => simp [List.getLast?_cons_cons, hlast]
      · simp only [runParsersAux, hdt, List.filter_cons, decide_eq_true_eq,
          Option.some.injEq, heq, if_false]
        rw [ih, pyGet_pyDictInsert_ne _ _ _ _ heq]

theorem data_consolidatedName (p : String) :
    (consolidatedName p).data =
      'c' :: ("onsolidated_".data ++ (p.data ++ ".json".data)) := by
  show (("consolidated_" ++ p) ++ ".json").data = _
  rw [String.data_append, String.data_append,
    show "consolidated_".data = 'c' :: "onsolidated_".data from rfl]
  simp

theorem data_manifestName (p : String) :
    (manifestName p).data =
      's' :: ("ources_manifest_".data ++ (p.data ++ ".json".data)) := by
  show (("sources_manifest_" ++ p) ++ ".json").data = _
  rw [String.data_append, String.data_append,
    show "sources_manifest_".data = 's' :: "ources_manifest_".data from rfl]
  simp

theorem consolidatedName_injective {p q : String}
    (h : consolidatedName p = consolidatedName q) : p = q := by
  have h' := congrArg String.data h
  rw [data_consolidatedName, data_consolidatedName] at h'
  simp only [List.cons.injEq, true_and] at h'
  have h2 := List.append_cancel_left h'
  have h3 := List.append_cancel_right h2
  cases p; cases q; exact congrArg String.mk h3

theorem manifestName_injective {p q : String}
    (h : manifestName p = manifestName q) : p = q := by
  have h' := congrArg String.data h
  rw [data_manifestName, data_manifestName] at h'
  simp only [List.cons.injEq, true_and] at h'
  have h2 := List.append_cancel_left h'
  have h3 := List.append_cancel_right h2
  cases p; cases q; exact congrArg String.mk h3

theorem consolidatedName_ne_manifestName (p q : String) :
    consolidatedName p ≠ manifestName q := by
  intro h
  have h' := congrArg String.data h
  rw [data_consolidatedName, data_manifestName] at h'
  simp at h'

theorem matchesJsonGlob_consolidatedName (p : String) :
    matchesJsonGlob (consolidatedName p) = true := by
  have : ".json".data <:+ (consolidatedName p).data := by
    show ".json".data <:+ (("consolidated_" ++ p) ++ ".json").data
    rw [String.data_append]
    exact List.suffix_append _ _
  simpa [matchesJsonGlob] using this

theorem matchesJsonGlob_manifestName (p : String) :
    matchesJsonGlob (manifestName p) = true := by
  have : ".json".data <:+ (manifestName p).data := by
    show ".json".data <:+ (("sources_manifest_" ++ p) ++ ".json").data
    rw [String.data_append]
    exact List.suffix_append _ _
  simpa [matchesJsonGlob] using this

theorem notMem_cleanOutputJsons {f : String} (h : matchesJsonGlob f = true)
    (files : List String) : f ∉ cleanOutputJsons files := by
  simp [cleanOutputJsons, List.mem_filter, h]

/-- A run over at least one bundle ends with the last bundle's pipeline
execution applied to some intermediate state. -/
theorem orchestratorRun_eq_last (stageJsons : String → List String) :
    ∀ (ps : List String) (files : List String) (q : String),
      ps.getLast? = some q →
      ∃ X, orchestratorRun stageJsons files ps =
        executePipeline stageJsons X q := by
  intro ps
  induction ps with
  | nil => intro files q h; simp at h
  | cons p rest ih =>
    intro files q h
    cases rest with
    | nil =>
      simp only [List.getLast?_singleton, Option.some.injEq] at h
      subst h
      exact ⟨files, by simp [orchestratorRun]⟩
    | cons r rs =>
      rw [List.getLast?_cons_cons] at h
      exact ih (executePipeline stageJsons files p) q h

/-- Every warning the concept loop appends for a dictionary entry cites
that entry's key, so entries other than `key` never contribute an
`AMBIGUOUS_MATCH` for `key`, and never insert a value under `key`. -/
theorem normalizeLoop_frame (source : String) (items : List IndexedItem)
    (key : String) :
    ∀ (dict : List (String × ConceptDef))
      (conceptos : List (String × CanonicalConceptValue))
      (warnings : List NormWarning)
      (res : List (String × CanonicalConceptValue) × List NormWarning),
      key ∉ dict.map Prod.fst →
      normalizeLoop source items dict conceptos warnings = some res →
      pyGet res.1 key = pyGet conceptos key ∧
      res.2.filter (isAmbiguousFor key) = warnings.filter (isAmbiguousFor key) := by
  intro dict
  induction dict with
  | nil =>
    intro conceptos warnings res _ hres
    simp only [normalizeLoop, Option.some.injEq] at hres
    subst hres
    exact ⟨rfl, rfl⟩
  | cons entry rest ih =>
    obtain ⟨k, cdef⟩ := entry
    intro conceptos warnings res hmem hres
    have hk : k ≠ key := fun h => hmem (by simp [h])
    have hrest : key ∉ rest.map Prod.fst := fun h => hmem (by simp [h])
    cases hfm : findMatches items ((pyGet cdef.matchers source).getD []) with
    | none => simp only [normalizeLoop, hfm] at hres; exact Option.noConfusion hres
    | some found =>
      cases found with
      | nil =>
        simp only [normalizeLoop, hfm] at hres
        by_cases hob : cdef.obligatorio = true
        · rw [if_pos hob] at hres
          obtain ⟨h1, h2⟩ := ih conceptos _ res hrest hres
          refine ⟨h1, ?_⟩
          rw [h2, List.filter_append]
          simp [isAmbiguousFor]
        · rw [if_neg hob] at hres
          exact ih conceptos warnings res hrest hres
      | cons a tail =>
        cases tail with
        | nil =>
          simp only [normalizeLoop, hfm] at hres
          by_cases hnum : a.value.isNumeric = false
          · rw [if_pos hnum] at hres
            obtain ⟨h1, h2⟩ := ih conceptos _ res hrest hres
            refine ⟨h1, ?_⟩
            rw [h2, List.filter_append]
            simp [isAmbiguousFor]
          · rw [if_neg hnum] at hres
            by_cases hdup : (pyGet conceptos k).isSome = true
            · rw [if_pos hdup] at hres
              obtain ⟨h1, h2⟩ := ih conceptos _ res hrest hres
              refine ⟨h1, ?_⟩
              rw [h2, List.filter_append]
              simp [isAmbiguousFor]
            · rw [if_neg hdup] at hres
              obtain ⟨h1, h2⟩ := ih _ warnings res hrest hres
              refine ⟨?_, h2⟩
              rw [h1, pyGet_pyDictInsert_ne _ _ _ _ hk]
        | cons b t =>
          simp only [normalizeLoop, hfm] at hres
          obtain ⟨h1, h2⟩ := ih conceptos _ res hrest hres
          refine ⟨h1, ?_⟩
          rw [h2, List.filter_append]
          simp [isAmbiguousFor, hk]

/-- Core of C4: once the loop reaches the ambiguous concept, the final
state records no value for it and carries exactly its one
`AMBIGUOUS_MATCH` warning. -/
theorem normalizeLoop_ambiguous (source : String) (items : List IndexedItem)
    (key : String) (cdef : ConceptDef) (ms : List IndexedItem)
    (hlen : 1 < ms.length) :
    ∀ (dict : List (String × ConceptDef))
      (conceptos : List (String × CanonicalConceptValue))
      (warnings : List NormWarning)
      (res : List (String × CanonicalConceptValue) × List NormWarning),
      (dict.map Prod.fst).Nodup →
      pyGet dict key = some cdef →
      pyGet conceptos key = none →
      warnings.filter (isAmbiguousFor key) = [] →
      findMatches items ((pyGet cdef.matchers source).getD []) = some ms →
      normalizeLoop source items dict conceptos warnings = some res →
      pyGet res.1 key = none ∧
      res.2.filter (isAmbiguousFor key) =
        [NormWarning.ambiguousMatch key ms.length ((ms.take 10).map summaryOf)] := by
  intro dict
  induction dict with
  | nil =>
    intro conceptos warnings res _ hget _ _ _ _
    simp [pyGet] at hget
  | cons entry rest ih =>
    obtain ⟨k, cd⟩ := entry
    intro conceptos warnings res hnodup hget hconc hw hfm hres
    by_cases hk : k = key
    · subst hk
      have hcd : cd = cdef := by simpa [pyGet] using hget
      subst hcd
      have hrest : k ∉ rest.map Prod.fst := by
        rw [List.map_cons] at hnodup
        exact (List.nodup_cons.mp hnodup).1
      cases ms with
      | nil => simp at hlen
      | cons a tail =>
        cases tail with
        | nil => simp at hlen
        | cons b t =>
          simp only [normalizeLoop, hfm] at hres
          obtain ⟨h1, h2⟩ := normalizeLoop_frame source items k rest conceptos
            _ res hrest hres
          refine ⟨by rw [h1, hconc], ?_⟩
          rw [h2, List.filter_append, hw]
          simp [isAmbiguousFor]
    · have hget' : pyGet rest key = some cdef := by
        simpa [pyGet, hk] using hget
      have hnodup' : (rest.map Prod.fst).Nodup := by
        rw [List.map_cons] at hnodup
        exact (List.nodup_cons.mp hnodup).2
      have hkne : k ≠ key := hk
      cases hfm' : findMatches items ((pyGet cd.matchers source).getD []) with
      | none => simp only [normalizeLoop, hfm'] at hres; exact Option.noConfusion hres
      | some found =>
        cases found with
        | nil =>
          simp only [normalizeLoop, hfm'] at hres
          by_cases hob : cd.obligatorio = true
          · rw [if_pos hob] at hres
            refine ih conceptos _ res hnodup' hget' hconc ?_ hfm hres
            rw [List.filter_append, hw]
            simp [isAmbiguousFor, hkne]
          · rw [if_neg hob] at hres
            exact ih conceptos warnings res hnodup' hget' hconc hw hfm hres
        | cons a tail =>
          cases tail with
          | nil =>
            simp only [normalizeLoop, hfm'] at hres
            by_cases hnum : a.value.isNumeric = false
            · rw [if_pos hnum] at hres
              refine ih conceptos _ res hnodup' hget' hconc ?_ hfm hres
              rw [List.filter_append, hw]
              simp [isAmbiguousFor, hkne]
            · rw [if_neg hnum] at hres
              by_cases hdup : (pyGet conceptos k).isSome = true
              · rw [if_pos hdup] at hres
                refine ih conceptos _ res hnodup' hget' hconc ?_ hfm hres
                rw [List.filter_append, hw]
                simp [isAmbiguousFor, hkne]
              · rw [if_neg hdup] at hres
                refine ih _ warnings res hnodup' hget' ?_ hw hfm hres
                rw [pyGet_pyDictInsert_ne _ _ _ _ hkne, hconc]
          | cons b t =>
            simp only [normalizeLoop, hfm'] at hres
            refine ih conceptos _ res hnodup' hget' hconc ?_ hfm hres
            rw [List.filter_append, hw]
            simp [isAmbiguousFor, hkne]

/-- C4: during normalization of one source, a concept whose matchers hit
more than one indexed item (each item counted once) gets no entry in the
resulting model's `conceptos`, and the model carries exactly one
`AMBIGUOUS_MATCH` warning for it, citing the match count and the first
10 candidate summaries (label, code, path). -/
theorem normalize_ambiguous_match_records_nothing
    (sourceName : String) (indexed : IndexedSource)
    (dict : List (String × ConceptDef)) (key : String) (cdef : ConceptDef)
    (ms : List IndexedItem) (model : CanonicalSourceModel)
    (hnodup : (dict.map Prod.fst).Nodup)
    (hkey : pyGet dict key = some cdef)
    (hfm : findMatches indexed.items ((pyGet cdef.matchers sourceName).getD [])
      = some ms)
    (hlen : 1 < ms.length)
    (hn : normalize sourceName indexed dict = some model) :
    pyGet model.conceptos key = none
    ∧ model.warnings.filter (isAmbiguousFor key) =
        [NormWarning.ambiguousMatch key ms.length ((ms.take 10).map summaryOf)] := by
  by_cases hsrc : indexed.source ≠ sourceName
  · rw [normalize, if_pos hsrc] at hn
    exact Option.noConfusion hn
  · cases hloop : normalizeLoop sourceName indexed.items dict [] [] with
    | none =>
      rw [normalize, if_neg hsrc] at hn
      simp only [hloop] at hn
      exact Option.noConfusion hn
    | some cw =>
      obtain ⟨c, w⟩ := cw
      rw [normalize, if_neg hsrc] at hn
      simp only [hloop, Option.some.injEq] at hn
      subst hn
      exact normalizeLoop_ambiguous sourceName indexed.items key cdef ms hlen
        dict [] [] (c, w) hnodup hkey rfl rfl hfm hloop

/-- Witness for C4: a one-concept dictionary whose `equals x` matcher
hits two indexed items — the normalized model records no value for the
concept and carries exactly the one `AMBIGUOUS_MATCH` warning with count
2 and both candidate summaries. -/
theorem normalize_ambiguous_match_records_nothing_witness :
    pyGet
      (CanonicalSourceModel.mk "f931" none []
        [] [NormWarning.ambiguousMatch "c1" 2
          [MatchSummary.mk (some "x") none "a", MatchSummary.mk (some "x") none "b"]]).conceptos
      "c1" = none
    ∧ (CanonicalSourceModel.mk "f931" none []
        [] [NormWarning.ambiguousMatch "c1" 2
          [MatchSummary.mk (some "x") none "a", MatchSummary.mk (some "x") none "b"]]).warnings.filter
        (isAmbiguousFor "c1") =
      [NormWarning.ambiguousMatch "c1"
        ([IndexedItem.mk "a" (some "x") (PyVal.vNum 1) "1" none [],
          IndexedItem.mk "b" (some "x") (PyVal.vNum 2) "2" none []].length)
        (([IndexedItem.mk "a" (some "x") (PyVal.vNum 1) "1" none [],
           IndexedItem.mk "b" (some "x") (PyVal.vNum 2) "2" none []].take 10).map summaryOf)] :=
  normalize_ambiguous_match_records_nothing "f931"
    (IndexedSource.mk "f931" none
      [IndexedItem.mk "a" (some "x") (PyVal.vNum 1) "1" none [],
       IndexedItem.mk "b" (some "x") (PyVal.vNum 2) "2" none []])
    [("c1", ConceptDef.mk "c1" false
        [("f931", [MatcherDef.mk "equals" "x" none true])])]
    "c1"
    (ConceptDef.mk "c1" false [("f931", [MatcherDef.mk "equals" "x" none true])])
    [IndexedItem.mk "a" (some "x") (PyVal.vNum 1) "1" none [],
     IndexedItem.mk "b" (some "x") (PyVal.vNum 2) "2" none []]
    (CanonicalSourceModel.mk "f931" none []
      [] [NormWarning.ambiguousMatch "c1" 2
        [MatchSummary.mk (some "x") none "a", MatchSummary.mk (some "x") none "b"]])
    (by decide) (by decide) (by decide) (by decide) (by decide)

theorem suppliesValue_none_of_resolveConcept_none
    (canon : List (String × CanonicalSourceModel)) (key : String) :
    ∀ (pr : List String), resolveConcept canon key pr = none →
      ∀ s ∈ pr, suppliesValue canon key s = none := by
  intro pr
  induction pr with
  | nil => intro _ s hs; exact absurd hs (List.not_mem_nil s)
  | cons src rest ih =>
    intro hres s hs
    cases hg : pyGet canon src with
    | none =>
      simp only [resolveConcept, hg] at hres
      rcases List.mem_cons.mp hs with h | h
      · subst h; simp [suppliesValue, hg]
      · exact ih hres s h
    | some model =>
      cases hc : pyGet model.conceptos key with
      | none =>
        simp only [resolveConcept, hg, hc] at hres
        rcases List.mem_cons.mp hs with h | h
        · subst h; simp [suppliesValue, hg, hc]
        · exact ih hres s h
      | some concept =>
        cases hf : pyFloat concept.valor with
        | none =>
          simp only [resolveConcept, hg, hc, hf] at hres
          rcases List.mem_cons.mp hs with h | h
          · subst h; simp [suppliesValue, hg, hc, hf]
          · exact ih hres s h
        | some v =>
          simp only [resolveConcept, hg, hc, hf] at hres
          exact Option.noConfusion hres

theorem resolveConcept_first_wins
    (canon : List (String × CanonicalSourceModel)) (key : String) :
    ∀ (pr : List String) (v : ℚ) (src : String),
      resolveConcept canon key pr = some (v, src) →
      suppliesValue canon key src = some v ∧ src ∈ pr ∧
      ∀ s ∈ pr.takeWhile (fun x => x ≠ src),
        suppliesValue canon key s = none := by
  intro pr
  induction pr with
  | nil => intro v src h; simp [resolveConcept] at h
  | cons s0 rest ih =>
    intro v src hres
    have step : ∀ (hrec : resolveConcept canon key rest = some (v, src))
        (hnone : suppliesValue canon key s0 = none),
        suppliesValue canon key src = some v ∧ src ∈ s0 :: rest ∧
        ∀ s ∈ (s0 :: rest).takeWhile (fun x => x ≠ src),
          suppliesValue canon key s = none := by
      intro hrec hnone
      obtain ⟨h1, h2, h3⟩ := ih v src hrec
      refine ⟨h1, List.mem_cons_of_mem _ h2, ?_⟩
      intro s hs
      by_cases h0 : s0 = src
      · rw [List.takeWhile_cons, if_neg (by simp [h0])] at hs
        exact absurd hs (List.not_mem_nil s)
      · rw [List.takeWhile_cons, if_pos (by simp [h0])] at hs
        rcases List.mem_cons.mp hs with h | h
        · subst h; exact hnone
        · exact h3 s h
    cases hg : pyGet canon s0 with
    | none =>
      simp only [resolveConcept, hg] at hres
      exact step hres (by simp [suppliesValue, hg])
    | some model =>
      cases hc : pyGet model.conceptos key with
      | none =>
        simp only [resolveConcept, hg, hc] at hres
        exact step hres (by simp [suppliesValue, hg, hc])
      | some concept =>
        cases hf : pyFloat concept.valor with
        | none =>
          simp only [resolveConcept, hg, hc, hf] at hres
          exact step hres (by simp [suppliesValue, hg, hc, hf])
        | some v0 =>
          simp only [resolveConcept, hg, hc, hf, Option.some.injEq,
            Prod.mk.injEq] at hres
          obtain ⟨hv, hsrc⟩ := hres
          subst hv; subst hsrc
          refine ⟨by simp [suppliesValue, hg, hc, hf], List.mem_cons_self _ _, ?_⟩
          intro s hs
          rw [List.takeWhile_cons, if_neg (by simp)] at hs
          exact absurd hs (List.not_mem_nil s)

theorem buildLoop_frame (canon : List (String × CanonicalSourceModel))
    (key : String) :
    ∀ (keys : List String) (b : ConsolidatedCanonicalBlock), key ∉ keys →
      pyGet (buildCanonicalBlockLoop canon keys b).conceptos key
        = pyGet b.conceptos key ∧
      pyGet (buildCanonicalBlockLoop canon keys b).origen_por_concepto key
        = pyGet b.origen_por_concepto key ∧
      (key ∈ (buildCanonicalBlockLoop canon keys b).faltantes
        ↔ key ∈ b.faltantes) := by
  intro keys
  induction keys with
  | nil => intro b _; simp [buildCanonicalBlockLoop]
  | cons k rest ih =>
    intro b hmem
    have hk : k ≠ key := fun h => hmem (by simp [h])
    have hrest : key ∉ rest := fun h => hmem (by simp [h])
    cases hres : resolveConcept canon k SOURCE_PRIORITY with
    | some pair =>
      obtain ⟨v, origin⟩ := pair
      simp only [buildCanonicalBlockLoop, hres]
      obtain ⟨h1, h2, h3⟩ := ih _ hrest
      refine ⟨?_, ?_, ?_⟩
      · rw [h1]; exact pyGet_pyDictInsert_ne _ _ _ _ hk
      · rw [h2]; exact pyGet_pyDictInsert_ne _ _ _ _ hk
      · exact h3
    | none =>
      simp only [buildCanonicalBlockLoop, hres]
      obtain ⟨h1, h2, h3⟩ := ih _ hrest
      refine ⟨h1, h2, ?_⟩
      rw [h3]
      have hky : key ≠ k := fun h => hk h.symm
      simp [List.mem_append, hky]

theorem buildLoop_resolved (canon : List (String × CanonicalSourceModel))
    (key : String) (v : ℚ) (src : String)
    (hres : resolveConcept canon key SOURCE_PRIORITY = some (v, src)) :
    ∀ (keys : List String) (b : ConsolidatedCanonicalBlock), key ∈ keys →
      pyGet (buildCanonicalBlockLoop canon keys b).conceptos key = some v ∧
      pyGet (buildCanonicalBlockLoop canon keys b).origen_por_concepto key
        = some src ∧
      (key ∉ b.faltantes →
        key ∉ (buildCanonicalBlockLoop canon keys b).faltantes) := by
  intro keys
  induction keys with
  | nil => intro b h; exact absurd h (List.not_mem_nil _)
  | cons k rest ih =>
    intro b hmem
    by_cases hk : k = key
    · subst hk
      simp only [buildCanonicalBlockLoop, hres]
      by_cases hr : k ∈ rest
      · obtain ⟨h1, h2, h3⟩ := ih _ hr
        exact ⟨h1, h2, fun hf => h3 hf⟩
      · obtain ⟨h1, h2, h3⟩ := buildLoop_frame canon k rest _ hr
        refine ⟨?_, ?_, ?_⟩
        · rw [h1]; exact pyGet_pyDictInsert_self _ _ _
        · rw [h2]; exact pyGet_pyDictInsert_self _ _ _
        · intro hf; rw [h3]; exact hf
    · have hmem2 : key ∈ rest := by
        rcases List.mem_cons.mp hmem with h | h
        · exact absurd h.symm hk
        · exact h
      cases hres2 : resolveConcept canon k SOURCE_PRIORITY with
      | some pair =>
        obtain ⟨v2, o2⟩ := pair
        simp only [buildCanonicalBlockLoop, hres2]
        obtain ⟨h1, h2, h3⟩ := ih _ hmem2
        exact ⟨h1, h2, fun hf => h3 hf⟩
      | none =>
        simp only [buildCanonicalBlockLoop, hres2]
        obtain ⟨h1, h2, h3⟩ := ih _ hmem2
        refine ⟨h1, h2, fun hf => h3 ?_⟩
        have hky : key ≠ k := fun h => hk h.symm
        simp [List.mem_append, hf, hky]

theorem buildLoop_unresolved (canon : List (String × CanonicalSourceModel))
    (key : String)
    (hres : resolveConcept canon key SOURCE_PRIORITY = none) :
    ∀ (keys : List String) (b : ConsolidatedCanonicalBlock), key ∈ keys →
      key ∈ (buildCanonicalBlockLoop canon keys b).faltantes ∧
      (pyGet b.conceptos key = none →
        pyGet (buildCanonicalBlockLoop canon keys b).conceptos key = none) := by
  intro keys
  induction keys with
  | nil => intro b h; exact absurd h (List.not_mem_nil _)
  | cons k rest ih =>
    intro b hmem
    by_cases hk : k = key
    · subst hk
      simp only [buildCanonicalBlockLoop, hres]
      by_cases hr : k ∈ rest
      · obtain ⟨h1, h2⟩ := ih _ hr
        exact ⟨h1, fun hc => h2 hc⟩
      · obtain ⟨h1, h2, h3⟩ := buildLoop_frame canon k rest _ hr
        refine ⟨?_, fun hc => ?_⟩
        · rw [h3]; simp [List.mem_append]
        · rw [h1]; exact hc
    · have hmem2 : key ∈ rest := by
        rcases List.mem_cons.mp hmem with h | h
        · exact absurd h.symm hk
        · exact h
      cases hres2 : resolveConcept canon k SOURCE_PRIORITY with
      | some pair =>
        obtain ⟨v2, o2⟩ := pair
        simp only [buildCanonicalBlockLoop, hres2]
        obtain ⟨h1, h2⟩ := ih _ hmem2
        refine ⟨h1, fun hc => h2 ?_⟩
        rw [pyGet_pyDictInsert_ne _ _ _ _ hk]; exact hc
      | none =>
        simp only [buildCanonicalBlockLoop, hres2]
        obtain ⟨h1, h2⟩ := ih _ hmem2
        exact ⟨h1, fun hc => h2 hc⟩

/-- C3: for every key of the supplied master list, the canonical block
walks `SOURCE_PRIORITY = [f931, borrador, asiento]` in order: when
`_resolve_concept` succeeds, the winning source is the first one that
supplies a float-castable value for the key, its value and name land in
`conceptos` / `origen_por_concepto`, and the key is not in `faltantes`;
when no source supplies a castable value, the key lands in `faltantes`
and is absent from `conceptos`. -/
theorem consolidator_priority_walk
    (canon : List (String × CanonicalSourceModel)) (conceptKeys : List String)
    (periodoIso : String) (key : String) (hmem : key ∈ conceptKeys) :
    (∀ (v : ℚ) (src : String),
      resolveConcept canon key SOURCE_PRIORITY = some (v, src) →
      suppliesValue canon key src = some v ∧ src ∈ SOURCE_PRIORITY ∧
      (∀ s ∈ SOURCE_PRIORITY.takeWhile (fun x => x ≠ src),
        suppliesValue canon key s = none) ∧
      pyGet (buildCanonicalBlock canon conceptKeys periodoIso).conceptos key
        = some v ∧
      pyGet (buildCanonicalBlock canon conceptKeys periodoIso).origen_por_concepto
        key = some src ∧
      key ∉ (buildCanonicalBlock canon conceptKeys periodoIso).faltantes)
    ∧ (resolveConcept canon key SOURCE_PRIORITY = none →
      (∀ s ∈ SOURCE_PRIORITY, suppliesValue canon key s = none) ∧
      key ∈ (buildCanonicalBlock canon conceptKeys periodoIso).faltantes ∧
      pyGet (buildCanonicalBlock canon conceptKeys periodoIso).conceptos key
        = none) := by
  constructor
  · intro v src hres
    obtain ⟨h1, h2, h3⟩ := resolveConcept_first_wins canon key SOURCE_PRIORITY v src hres
    obtain ⟨h4, h5, h6⟩ := buildLoop_resolved canon key v src hres conceptKeys _ hmem
    exact ⟨h1, h2, h3, h4, h5, h6 (List.not_mem_nil key)⟩
  · intro hres
    obtain ⟨h1, h2⟩ := buildLoop_unresolved canon key hres conceptKeys _ hmem
    exact ⟨suppliesValue_none_of_resolveConcept_none canon key SOURCE_PRIORITY hres,
      h1, h2 rfl⟩

/-- Witness for C3 at a concrete input: `f931` and `borrador` both
supply `rem_total` (so the f931 value 100 wins), and `missing_key` is
supplied by no source (so it lands in `faltantes`). -/
theorem consolidator_priority_walk_witness :
    ("rem_total" : String) ∈ (["rem_total", "missing_key"] : List String)
    ∧ ((∀ (v : ℚ) (src : String),
      resolveConcept
        (canonByName
          [CanonicalSourceModel.mk "f931" (some "2025-05")
            [("rem_total", CanonicalConceptValue.mk (PyVal.vNum 100)
              (CanonicalConceptEvidence.mk (some "Rem total") none "p1" "100" []))]
            [] [],
           CanonicalSourceModel.mk "borrador" (some "2025-05")
            [("rem_total", CanonicalConceptValue.mk (PyVal.vNum 200)
              (CanonicalConceptEvidence.mk (some "Rem total") none "p2" "200" []))]
            [] []])
        "rem_total" SOURCE_PRIORITY = some (v, src) →
      suppliesValue
        (canonByName
          [CanonicalSourceModel.mk "f931" (some "2025-05")
            [("rem_total", CanonicalConceptValue.mk (PyVal.vNum 100)
              (CanonicalConceptEvidence.mk (some "Rem total") none "p1" "100" []))]
            [] [],
           CanonicalSourceModel.mk "borrador" (some "2025-05")
            [("rem_total", CanonicalConceptValue.mk (PyVal.vNum 200)
              (CanonicalConceptEvidence.mk (some "Rem total") none "p2" "200" []))]
            [] []])
        "rem_total" src = some v ∧ src ∈ SOURCE_PRIORITY ∧
      (∀ s ∈ SOURCE_PRIORITY.takeWhile (fun x => x ≠ src),
        suppliesValue
          (canonByName
            [CanonicalSourceModel.mk "f931" (some "2025-05")
              [("rem_total", CanonicalConceptValue.mk (PyVal.vNum 100)
                (CanonicalConceptEvidence.mk (some "Rem total") none "p1" "100" []))]
              [] [],
             CanonicalSourceModel.mk "borrador" (some "2025-05")
              [("rem_total", CanonicalConceptValue.mk (PyVal.vNum 200)
                (CanonicalConceptEvidence.mk (some "Rem total") none "p2" "200" []))]
              [] []])
          "rem_total" s = none) ∧
      pyGet
        (buildCanonicalBlock
          (canonByName
            [CanonicalSourceModel.mk "f931" (some "2025-05")
              [("rem_total", CanonicalConceptValue.mk (PyVal.vNum 100)
                (CanonicalConceptEvidence.mk (some "Rem total") none "p1" "100" []))]
              [] [],
             CanonicalSourceModel.mk "borrador" (some "2025-05")
              [("rem_total", CanonicalConceptValue.mk (PyVal.vNum 200)
                (CanonicalConceptEvidence.mk (some "Rem total") none "p2" "200" []))]
              [] []])
          ["rem_total", "missing_key"] "2025-05").conceptos "rem_total"
        = some v ∧
      pyGet
        (buildCanonicalBlock
          (canonByName
            [CanonicalSourceModel.mk "f931" (some "2025-05")
              [("rem_total", CanonicalConceptValue.mk (PyVal.vNum 100)
                (CanonicalConceptEvidence.mk (some "Rem total") none "p1" "100" []))]
              [] [],
             CanonicalSourceModel.mk "borrador" (some "2025-05")
              [("rem_total", CanonicalConceptValue.mk (PyVal.vNum 200)
                (CanonicalConceptEvidence.mk (some "Rem total") none "p2" "200" []))]
              [] []])
          ["rem_total", "missing_key"] "2025-05").origen_por_concepto
        "rem_total" = some src ∧
      "rem_total" ∉
        (buildCanonicalBlock
          (canonByName
            [CanonicalSourceModel.mk "f931" (some "2025-05")
              [("rem_total", CanonicalConceptValue.mk (PyVal.vNum 100)
                (CanonicalConceptEvidence.mk (some "Rem total") none "p1" "100" []))]
              [] [],
             CanonicalSourceModel.mk "borrador" (some "2025-05")
              [("rem_total", CanonicalConceptValue.mk (PyVal.vNum 200)
                (CanonicalConceptEvidence.mk (some "Rem total") none "p2" "200" []))]
              [] []])
          ["rem_total", "missing_key"] "2025-05").faltantes)
    ∧ (resolveConcept
        (canonByName
          [CanonicalSourceModel.mk "f931" (some "2025-05")
            [("rem_total", CanonicalConceptValue.mk (PyVal.vNum 100)
              (CanonicalConceptEvidence.mk (some "Rem total") none "p1" "100" []))]
            [] [],
           CanonicalSourceModel.mk "borrador" (some "2025-05")
            [("rem_total", CanonicalConceptValue.mk (PyVal.vNum 200)
              (CanonicalConceptEvidence.mk (some "Rem total") none "p2" "200" []))]
            [] []])
        "rem_total" SOURCE_PRIORITY = none →
      (∀ s ∈ SOURCE_PRIORITY,
        suppliesValue
          (canonByName
            [CanonicalSourceModel.mk "f931" (some "2025-05")
              [("rem_total", CanonicalConceptValue.mk (PyVal.vNum 100)
                (CanonicalConceptEvidence.mk (some "Rem total") none "p1" "100" []))]
              [] [],
             CanonicalSourceModel.mk "borrador" (some "2025-05")
              [("rem_total", CanonicalConceptValue.mk (PyVal.vNum 200)
                (CanonicalConceptEvidence.mk (some "Rem total") none "p2" "200" []))]
              [] []])
          "rem_total" s = none) ∧
      "rem_total" ∈
        (buildCanonicalBlock
          (canonByName
            [CanonicalSourceModel.mk "f931" (some "2025-05")
              [("rem_total", CanonicalConceptValue.mk (PyVal.vNum 100)
                (CanonicalConceptEvidence.mk (some "Rem total") none "p1" "100" []))]
              [] [],
             CanonicalSourceModel.mk "borrador" (some "2025-05")
              [("rem_total", CanonicalConceptValue.mk (PyVal.vNum 200)
                (CanonicalConceptEvidence.mk (some "Rem total") none "p2" "200" []))]
              [] []])
          ["rem_total", "missing_key"] "2025-05").faltantes ∧
      pyGet
        (buildCanonicalBlock
          (canonByName
            [CanonicalSourceModel.mk "f931" (some "2025-05")
              [("rem_total", CanonicalConceptValue.mk (PyVal.vNum 100)
                (CanonicalConceptEvidence.mk (some "Rem total") none "p1" "100" []))]
              [] [],
             CanonicalSourceModel.mk "borrador" (some "2025-05")
              [("rem_total", CanonicalConceptValue.mk (PyVal.vNum 200)
                (CanonicalConceptEvidence.mk (some "Rem total") none "p2" "200" []))]
              [] []])
          ["rem_total", "missing_key"] "2025-05").conceptos "rem_total"
        = none)) :=
  ⟨by decide,
   consolidator_priority_walk
     (canonByName
       [CanonicalSourceModel.mk "f931" (some "2025-05")
         [("rem_total", CanonicalConceptValue.mk (PyVal.vNum 100)
           (CanonicalConceptEvidence.mk (some "Rem total") none "p1" "100" []))]
         [] [],
        CanonicalSourceModel.mk "borrador" (some "2025-05")
         [("rem_total", CanonicalConceptValue.mk (PyVal.vNum 200)
           (CanonicalConceptEvidence.mk (some "Rem total") none "p2" "200" []))]
         [] []])
     ["rem_total", "missing_key"] "2025-05" "rem_total" (by decide)⟩

theorem dedupByPath_subset {it : IndexedItem} :
    ∀ (seen : List String) (l : List IndexedItem),
      it ∈ dedupByPath seen l → it ∈ l := by
  intro seen l
  induction l generalizing seen with
  | nil => intro h; exact absurd h (List.not_mem_nil it)
  | cons hd rest ih =>
    intro h
    by_cases hs : hd.json_path ∈ seen
    · rw [dedupByPath, if_pos hs] at h
      exact List.mem_cons_of_mem _ (ih seen h)
    · rw [dedupByPath, if_neg hs] at h
      rcases List.mem_cons.mp h with h1 | h1
      · exact h1 ▸ List.mem_cons_self _ _
      · exact List.mem_cons_of_mem _ (ih _ h1)

theorem dedupByPath_nodup :
    ∀ (l : List IndexedItem) (seen : List String),
      ((dedupByPath seen l).map (fun it => it.json_path)).Nodup ∧
      ∀ it ∈ dedupByPath seen l, it.json_path ∉ seen := by
  intro l
  induction l with
  | nil => intro seen; simp [dedupByPath]
  | cons hd rest ih =>
    intro seen
    by_cases hs : hd.json_path ∈ seen
    · rw [dedupByPath, if_pos hs]
      exact ih seen
    · rw [dedupByPath, if_neg hs]
      obtain ⟨h1, h2⟩ := ih (hd.json_path :: seen)
      refine ⟨?_, ?_⟩
      · rw [List.map_cons, List.nodup_cons]
        refine ⟨?_, h1⟩
        intro hmem
        obtain ⟨it, hit, hpath⟩ := List.mem_map.mp hmem
        exact h2 it hit (hpath ▸ List.mem_cons_self _ _)
      · intro it hit
        rcases List.mem_cons.mp hit with h | h
        · exact h ▸ hs
        · exact fun hmem => h2 it h (List.mem_cons_of_mem _ hmem)

theorem dedupByPath_find? (p : String) :
    ∀ (l : List IndexedItem) (seen : List String), p ∉ seen →
      (dedupByPath seen l).find? (fun it => it.json_path = p) =
        l.find? (fun it => it.json_path = p) := by
  intro l
  induction l with
  | nil => intro seen _; simp [dedupByPath]
  | cons hd rest ih =>
    intro seen hp
    by_cases hs : hd.json_path ∈ seen
    · rw [dedupByPath, if_pos hs]
      have hne : ¬ (hd.json_path = p) := fun h => hp (h ▸ hs)
      rw [List.find?_cons_of_neg _ (by simpa using hne)]
      exact ih seen hp
    · rw [dedupByPath, if_neg hs]
      by_cases heq : hd.json_path = p
      · rw [List.find?_cons_of_pos _ (by simpa using heq),
          List.find?_cons_of_pos _ (by simpa using heq)]
      · rw [List.find?_cons_of_neg _ (by simpa using heq),
          List.find?_cons_of_neg _ (by simpa using heq)]
        refine ih _ ?_
        intro h
        rcases List.mem_cons.mp h with h1 | h1
        · exact heq h1.symm
        · exact hp h1

/-- C8: every `IndexedSource` the base indexer produces has (a) at most
one item per `json_path` — the first numeric candidate with that path,
in candidate order — and (b) only numeric values: each contained item
originates from a candidate whose value was numeric, and a candidate
whose value is not numeric yields no item at all. -/
theorem indexer_invariants (source : String) (periodo : Option String)
    (cands : List IndexCandidate) :
    (((indexSource source periodo cands).items.map
        (fun it => it.json_path)).Nodup)
    ∧ (∀ p : String,
        (indexSource source periodo cands).items.find?
            (fun it => it.json_path = p) =
          (cands.filterMap makeItem).find? (fun it => it.json_path = p))
    ∧ (∀ it ∈ (indexSource source periodo cands).items,
        it.value.isNumeric = true ∧ ∃ c ∈ cands, makeItem c = some it)
    ∧ (∀ c ∈ cands, c.value.isNumeric = false → makeItem c = none) := by
  refine ⟨(dedupByPath_nodup _ []).1, ?_, ?_, ?_⟩
  · intro p
    exact dedupByPath_find? p (cands.filterMap makeItem) []
      (List.not_mem_nil p)
  · intro it hit
    have hmem : it ∈ cands.filterMap makeItem :=
      dedupByPath_subset [] _ hit
    obtain ⟨c, hc, hmk⟩ := List.mem_filterMap.mp hmem
    refine ⟨?_, c, hc, hmk⟩
    cases hv : c.value with
    | vNum q =>
      rw [makeItem, hv] at hmk
      simp only [Option.some.injEq] at hmk
      rw [← hmk]
      rfl
    | vNone => rw [makeItem, hv] at hmk; exact Option.noConfusion hmk
    | vStr s => rw [makeItem, hv] at hmk; exact Option.noConfusion hmk
    | vDate y m d => rw [makeItem, hv] at hmk; exact Option.noConfusion hmk
  · intro c _ hnum
    cases hv : c.value with
    | vNum q => rw [hv] at hnum; exact absurd hnum (by simp [PyVal.isNumeric])
    | vNone => rw [makeItem, hv]
    | vStr s => rw [makeItem, hv]
    | vDate y m d => rw [makeItem, hv]

theorem setCell_get_same (s : Sheet) (r c : Nat) (cell : Cell) :
    setCell s r c cell r c = cell := by
  simp [setCell]

theorem setCell_get_other (s : Sheet) (r c : Nat) (cell : Cell)
    (r' c' : Nat) (h : ¬(r' = r ∧ c' = c)) :
    setCell s r c cell r' c' = s r' c' := by
  simp [setCell, h]

theorem write931_formula (f : String) :
    ∀ (items : List Item931) (s : Sheet) (r c : Nat),
      s r c = Cell.formula f → write931 s items r c = Cell.formula f := by
  intro items
  induction items with
  | nil => intro s r c h; exact h
  | cons it rest ih =>
    intro s r c h
    show write931 (setCell s it.row it.col
      (writeStep931 (s it.row it.col) it.value)) rest r c = Cell.formula f
    apply ih
    by_cases hx : r = it.row ∧ c = it.col
    · obtain ⟨h1, h2⟩ := hx
      subst h1; subst h2
      rw [setCell_get_same, h]
      simp [writeStep931, Cell.isFormula]
    · rw [setCell_get_other _ _ _ _ _ _ hx]; exact h

theorem agRowCellResult_formula (resolve : Nat → String → Option PyVal)
    (row : Nat) (concepto : Cell) (f : String) :
    agRowCellResult resolve row concepto (Cell.formula f) = Cell.formula f := by
  by_cases h1 : concepto.isTruthy = false
  · rw [agRowCellResult, if_pos h1]
  · rw [agRowCellResult, if_neg h1, if_pos (show (Cell.formula f).isFormula = true from rfl)]

theorem writeAGRows_formula (resolve : Nat → String → Option PyVal)
    (col : Nat) (f : String) :
    ∀ (rows : List Nat) (s : Sheet) (r c : Nat),
      s r c = Cell.formula f →
      writeAGRows resolve col s rows r c = Cell.formula f := by
  intro rows
  induction rows with
  | nil => intro s r c h; exact h
  | cons row rest ih =>
    intro s r c h
    show writeAGRows resolve col (writeAGRow resolve col s row) rest r c
      = Cell.formula f
    apply ih
    rw [writeAGRow]
    by_cases hx : r = row ∧ c = col
    · obtain ⟨h1, h2⟩ := hx
      subst h1; subst h2
      rw [setCell_get_same]
      rw [show s r c = Cell.formula f from h]
      exact agRowCellResult_formula resolve r _ f
    · rw [setCell_get_other _ _ _ _ _ _ hx]; exact h

theorem writeStep931_idem (cell : Cell) (v : PyVal) :
    writeStep931 (writeStep931 cell v) v = writeStep931 cell v := by
  by_cases h1 : cell.isFormula = true
  · have e : writeStep931 cell v = cell := by rw [writeStep931, if_pos h1]
    rw [e]; exact e
  · by_cases h2 : (isNumZero v && !cell.isEmptyOrZero) = true
    · have e : writeStep931 cell v = cell := by
        rw [writeStep931, if_neg h1, if_pos h2]
      rw [e]; exact e
    · by_cases h3 : v = PyVal.vNone
      · have e : writeStep931 cell v = cell := by
          rw [writeStep931, if_neg h1, if_neg h2, if_pos h3]
        rw [e]; exact e
      · have e : writeStep931 cell v = Cell.val v := by
          rw [writeStep931, if_neg h1, if_neg h2, if_neg h3]
        rw [e]
        have hf : ¬ ((Cell.val v).isFormula = true) := by
          simp [Cell.isFormula]
        have hz : ¬ ((isNumZero v && !(Cell.val v).isEmptyOrZero) = true) := by
          cases v with
          | vNum q =>
            by_cases hq : q = 0
            · simp [isNumZero, Cell.isEmptyOrZero, hq]
            · simp [isNumZero, hq]
          | vNone => simp [isNumZero]
          | vStr s2 => simp [isNumZero]
          | vDate y m d => simp [isNumZero]
        rw [writeStep931, if_neg hf, if_neg hz, if_neg h3]

theorem agRowCellResult_idem (resolve : Nat → String → Option PyVal)
    (row : Nat) (concepto target : Cell) :
    agRowCellResult resolve row concepto
        (agRowCellResult resolve row concepto target)
      = agRowCellResult resolve row concepto target := by
  by_cases h1 : concepto.isTruthy = false
  · have e : agRowCellResult resolve row concepto target = target := by
      rw [agRowCellResult, if_pos h1]
    rw [e]; exact e
  · by_cases h2 : target.isFormula = true
    · have e : agRowCellResult resolve row concepto target = target := by
        rw [agRowCellResult, if_neg h1, if_pos h2]
      rw [e]; exact e
    · cases hres : resolve row concepto.labelText with
      | none =>
        have e : agRowCellResult resolve row concepto target = target := by
          simp only [agRowCellResult, hres]
          rw [if_neg h1, if_neg h2]
        rw [e]; exact e
      | some v =>
        by_cases h3 : (isNumZero v && !target.isEmptyOrZero) = true
        · have e : agRowCellResult resolve row concepto target = target := by
            simp only [agRowCellResult, hres]
            rw [if_neg h1, if_neg h2, if_pos h3]
          rw [e]; exact e
        · have e : agRowCellResult resolve row concepto target = Cell.val v := by
            simp only [agRowCellResult, hres]
            rw [if_neg h1, if_neg h2, if_neg h3]
          rw [e]
          have hf : ¬ ((Cell.val v).isFormula = true) := by
            simp [Cell.isFormula]
          simp only [agRowCellResult, hres]
          rw [if_neg h1, if_neg hf]
          exact ite_self _

theorem write931_get_other :
    ∀ (items : List Item931) (s : Sheet) (r c : Nat),
      (r, c) ∉ items.map (fun it => (it.row, it.col)) →
      write931 s items r c = s r c := by
  intro items
  induction items with
  | nil => intro s r c _; rfl
  | cons it rest ih =>
    intro s r c h
    have h1 : (r, c) ∉ rest.map (fun it => (it.row, it.col)) :=
      fun hx => h (by simp [hx])
    have h2 : ¬(r = it.row ∧ c = it.col) := by
      intro hx
      exact h (by simp [hx.1, hx.2])
    show write931 (setCell s it.row it.col
      (writeStep931 (s it.row it.col) it.value)) rest r c = s r c
    rw [ih _ _ _ h1, setCell_get_other _ _ _ _ _ _ h2]

theorem write931_congr :
    ∀ (items : List Item931) (s t : Sheet), (∀ r c, s r c = t r c) →
      ∀ r c, write931 s items r c = write931 t items r c := by
  intro items
  induction items with
  | nil => intro s t h r c; exact h r c
  | cons it rest ih =>
    intro s t h r c
    show write931 (setCell s it.row it.col
        (writeStep931 (s it.row it.col) it.value)) rest r c
      = write931 (setCell t it.row it.col
        (writeStep931 (t it.row it.col) it.value)) rest r c
    apply ih
    intro r' c'
    by_cases hx : r' = it.row ∧ c' = it.col
    · obtain ⟨e1, e2⟩ := hx
      subst e1; subst e2
      rw [setCell_get_same, setCell_get_same, h it.row it.col]
    · rw [setCell_get_other _ _ _ _ _ _ hx, setCell_get_other _ _ _ _ _ _ hx]
      exact h r' c'

theorem write931_idem :
    ∀ (items : List Item931),
      (items.map (fun it => (it.row, it.col))).Nodup →
      ∀ (s : Sheet) (r c : Nat),
        write931 (write931 s items) items r c = write931 s items r c := by
  intro items
  induction items with
  | nil => intro _ s r c; rfl
  | cons it rest ih =>
    intro hnd s r c
    rw [List.map_cons, List.nodup_cons] at hnd
    obtain ⟨hp, hrest⟩ := hnd
    have hS1p : write931 (setCell s it.row it.col
        (writeStep931 (s it.row it.col) it.value)) rest it.row it.col
        = writeStep931 (s it.row it.col) it.value := by
      rw [write931_get_other rest _ it.row it.col hp, setCell_get_same]
    have hfix : ∀ r' c',
        setCell (write931 (setCell s it.row it.col
            (writeStep931 (s it.row it.col) it.value)) rest)
          it.row it.col
          (writeStep931 (write931 (setCell s it.row it.col
            (writeStep931 (s it.row it.col) it.value)) rest it.row it.col)
            it.value) r' c'
        = write931 (setCell s it.row it.col
            (writeStep931 (s it.row it.col) it.value)) rest r' c' := by
      intro r' c'
      by_cases hx : r' = it.row ∧ c' = it.col
      · obtain ⟨e1, e2⟩ := hx
        subst e1; subst e2
        rw [setCell_get_same, hS1p, writeStep931_idem]
      · rw [setCell_get_other _ _ _ _ _ _ hx]
    show write931 (setCell (write931 (setCell s it.row it.col
        (writeStep931 (s it.row it.col) it.value)) rest) it.row it.col
        (writeStep931 (write931 (setCell s it.row it.col
          (writeStep931 (s it.row it.col) it.value)) rest it.row it.col)
          it.value)) rest r c
      = write931 (setCell s it.row it.col
          (writeStep931 (s it.row it.col) it.value)) rest r c
    calc write931 (setCell (write931 (setCell s it.row it.col
          (writeStep931 (s it.row it.col) it.value)) rest) it.row it.col
          (writeStep931 (write931 (setCell s it.row it.col
            (writeStep931 (s it.row it.col) it.value)) rest it.row it.col)
            it.value)) rest r c
        = write931 (write931 (setCell s it.row it.col
            (writeStep931 (s it.row it.col) it.value)) rest) rest r c :=
          write931_congr rest _ _ hfix r c
      _ = write931 (setCell s it.row it.col
            (writeStep931 (s it.row it.col) it.value)) rest r c :=
          ih hrest _ r c

theorem writeAGRows_get_other (resolve : Nat → String → Option PyVal)
    (col : Nat) :
    ∀ (rows : List Nat) (s : Sheet) (r c : Nat), (r ∉ rows ∨ c ≠ col) →
      writeAGRows resolve col s rows r c = s r c := by
  intro rows
  induction rows with
  | nil => intro s r c _; rfl
  | cons row rest ih =>
    intro s r c h
    have h1 : r ∉ rest ∨ c ≠ col := by
      rcases h with h | h
      · exact Or.inl (fun hx => h (List.mem_cons_of_mem _ hx))
      · exact Or.inr h
    have h2 : ¬(r = row ∧ c = col) := by
      intro hx
      rcases h with h | h
      · exact h (hx.1 ▸ List.mem_cons_self _ _)
      · exact h hx.2
    show writeAGRows resolve col (writeAGRow resolve col s row) rest r c = s r c
    rw [ih _ _ _ h1, writeAGRow, setCell_get_other _ _ _ _ _ _ h2]

theorem writeAGRows_congr (resolve : Nat → String → Option PyVal)
    (col : Nat) :
    ∀ (rows : List Nat) (s t : Sheet), (∀ r c, s r c = t r c) →
      ∀ r c, writeAGRows resolve col s rows r c
        = writeAGRows resolve col t rows r c := by
  intro rows
  induction rows with
  | nil => intro s t h r c; exact h r c
  | cons row rest ih =>
    intro s t h r c
    show writeAGRows resolve col (writeAGRow resolve col s row) rest r c
      = writeAGRows resolve col (writeAGRow resolve col t row) rest r c
    apply ih
    intro r' c'
    rw [writeAGRow, writeAGRow]
    by_cases hx : r' = row ∧ c' = col
    · obtain ⟨e1, e2⟩ := hx
      subst e1; subst e2
      rw [setCell_get_same, setCell_get_same, h r' 2, h r' c']
    · rw [setCell_get_other _ _ _ _ _ _ hx, setCell_get_other _ _ _ _ _ _ hx]
      exact h r' c'

theorem writeAGRows_idem (resolve : Nat → String → Option PyVal)
    (col : Nat) (hcol : col ≠ 2) :
    ∀ (rows : List Nat), rows.Nodup → ∀ (s : Sheet) (r c : Nat),
      writeAGRows resolve col (writeAGRows resolve col s rows) rows r c
        = writeAGRows resolve col s rows r c := by
  intro rows
  induction rows with
  | nil => intro _ s r c; rfl
  | cons row rest ih =>
    intro hnd s r c
    obtain ⟨hrow, hrest⟩ := List.nodup_cons.mp hnd
    have hb : writeAGRows resolve col (writeAGRow resolve col s row) rest row 2
        = writeAGRow resolve col s row row 2 :=
      writeAGRows_get_other resolve col rest _ row 2 (Or.inl hrow)
    have hcc : writeAGRows resolve col (writeAGRow resolve col s row) rest row col
        = writeAGRow resolve col s row row col :=
      writeAGRows_get_other resolve col rest _ row col (Or.inl hrow)
    have hb2 : writeAGRow resolve col s row row 2 = s row 2 := by
      rw [writeAGRow]
      exact setCell_get_other _ _ _ _ _ _ (fun hx => hcol hx.2.symm)
    have htc : writeAGRow resolve col s row row col
        = agRowCellResult resolve row (s row 2) (s row col) := by
      rw [writeAGRow]; exact setCell_get_same _ _ _ _
    have hfix : ∀ r' c',
        writeAGRow resolve col
          (writeAGRows resolve col (writeAGRow resolve col s row) rest) row r' c'
        = writeAGRows resolve col (writeAGRow resolve col s row) rest r' c' := by
      intro r' c'
      rw [writeAGRow]
      by_cases hx : r' = row ∧ c' = col
      · obtain ⟨e1, e2⟩ := hx
        subst e1; subst e2
        rw [setCell_get_same, hb, hcc, hb2, htc]
        exact agRowCellResult_idem resolve r' _ _
      · rw [setCell_get_other _ _ _ _ _ _ hx]
    show writeAGRows resolve col
        (writeAGRow resolve col
          (writeAGRows resolve col (writeAGRow resolve col s row) rest) row)
        rest r c
      = writeAGRows resolve col (writeAGRow resolve col s row) rest r c
    calc writeAGRows resolve col
          (writeAGRow resolve col
            (writeAGRows resolve col (writeAGRow resolve col s row) rest) row)
          rest r c
        = writeAGRows resolve col
            (writeAGRows resolve col (writeAGRow resolve col s row) rest)
            rest r c := writeAGRows_congr resolve col rest _ _ hfix r c
      _ = writeAGRows resolve col (writeAGRow resolve col s row) rest r c :=
          ih hrest _ r c

theorem find?_congr {α : Type} :
    ∀ (l : List α) (p q : α → Bool), (∀ x ∈ l, p x = q x) →
      l.find? p = l.find? q := by
  intro l
  induction l with
  | nil => intro p q _; rfl
  | cons a rest ih =>
    intro p q h
    cases hpa : p a with
    | true =>
      rw [List.find?_cons_of_pos _ hpa,
        List.find?_cons_of_pos _ (by rw [← h a (List.mem_cons_self a rest)]; exact hpa)]
    | false =>
      rw [List.find?_cons_of_neg _ (by simp [hpa]),
        List.find?_cons_of_neg _ (by
          rw [← h a (List.mem_cons_self a rest)]; simp [hpa])]
      exact ih p q (fun x hx => h x (List.mem_cons_of_mem _ hx))

/-- C5: on both sheets, a target cell holding a formula is never
changed, whatever value resolves for it; and a resolved value of exactly
zero never replaces a cell that already holds a non-empty, non-zero
value (`cell.value not in (None, "", 0)`). -/
theorem excel_writer_formula_and_zero_protection :
    (∀ (items : List Item931) (s : Sheet) (r c : Nat) (f : String),
      s r c = Cell.formula f → write931 s items r c = Cell.formula f)
    ∧ (∀ (resolve : Nat → String → Option PyVal) (col : Nat) (s : Sheet)
        (r c : Nat) (f : String),
      s r c = Cell.formula f →
      writeAnalisisGeneral resolve col s r c = Cell.formula f)
    ∧ (∀ (cell : Cell) (v : PyVal), isNumZero v = true →
      cell.isEmptyOrZero = false → writeStep931 cell v = cell)
    ∧ (∀ (resolve : Nat → String → Option PyVal) (row : Nat)
        (concepto target : Cell) (v : PyVal),
      resolve row concepto.labelText = some v → isNumZero v = true →
      target.isEmptyOrZero = false →
      agRowCellResult resolve row concepto target = target) := by
  refine ⟨?_, ?_, ?_, ?_⟩
  · intro items s r c f h
    exact write931_formula f items s r c h
  · intro resolve col s r c f h
    exact writeAGRows_formula resolve col f agDataRows s r c h
  · intro cell v hz hne
    by_cases h1 : cell.isFormula = true
    · rw [writeStep931, if_pos h1]
    · rw [writeStep931, if_neg h1, if_pos (by rw [hz, hne]; rfl)]
  · intro resolve row concepto target v hres hz hne
    by_cases h1 : concepto.isTruthy = false
    · rw [agRowCellResult, if_pos h1]
    · by_cases h2 : target.isFormula = true
      · rw [agRowCellResult, if_neg h1, if_pos h2]
      · simp only [agRowCellResult, hres]
        rw [if_neg h1, if_neg h2, if_pos (by rw [hz, hne]; rfl)]

/-- Witness for C5 at concrete cells: a formula cell survives a "931"
write targeting its coordinate; and a resolved `0` leaves an existing
`42` untouched on both write paths. -/
theorem excel_writer_formula_and_zero_protection_witness :
    write931 (fun _ _ => Cell.formula "=A1+B1")
      [Item931.mk 5 3 (PyVal.vNum 7)] 5 3 = Cell.formula "=A1+B1"
    ∧ writeAnalisisGeneral (fun _ _ => some (PyVal.vNum 7)) 4
        (fun _ _ => Cell.formula "=SUM(D8:D38)") 10 4
      = Cell.formula "=SUM(D8:D38)"
    ∧ writeStep931 (Cell.val (PyVal.vNum 42)) (PyVal.vNum 0)
      = Cell.val (PyVal.vNum 42)
    ∧ agRowCellResult (fun _ _ => some (PyVal.vNum 0)) 10
        (Cell.val (PyVal.vStr "Sueldos")) (Cell.val (PyVal.vNum 42))
      = Cell.val (PyVal.vNum 42) :=
  ⟨excel_writer_formula_and_zero_protection.1
      [Item931.mk 5 3 (PyVal.vNum 7)] (fun _ _ => Cell.formula "=A1+B1")
      5 3 "=A1+B1" rfl,
   excel_writer_formula_and_zero_protection.2.1
      (fun _ _ => some (PyVal.vNum 7)) 4
      (fun _ _ => Cell.formula "=SUM(D8:D38)") 10 4 "=SUM(D8:D38)" rfl,
   excel_writer_formula_and_zero_protection.2.2.1
      (Cell.val (PyVal.vNum 42)) (PyVal.vNum 0) (by decide) (by decide),
   excel_writer_formula_and_zero_protection.2.2.2
      (fun _ _ => some (PyVal.vNum 0)) 10
      (Cell.val (PyVal.vStr "Sueldos")) (Cell.val (PyVal.vNum 42))
      (PyVal.vNum 0) rfl (by decide) (by decide)⟩

/-- C6: re-running the per-period body of `build_year` with the same
consolidated data on the workbook it just produced changes nothing: the
month column detects identically (row 7 is never written), and both
sheet writes are idempotent.  Hypotheses: the "931" mapping targets
pairwise-distinct cells, and the detected month column is not column B
(true of the real template, whose month columns are D..O and whose
headers match only date cells). -/
theorem build_year_rerun_idempotent
    (items : List Item931) (resolve : Nat → String → Option PyVal)
    (year month maxCol : Nat) (anchorIsDate : Bool) (wb0 wb1 : Workbook)
    (hnd : (items.map (fun it => (it.row, it.col))).Nodup)
    (h1 : processWorkbook items resolve year month maxCol anchorIsDate wb0
      = some wb1)
    (hcol : ∀ col,
      detectAnalisisColumn wb0.ag year month maxCol anchorIsDate = some col →
      col ≠ 2) :
    ∃ wb2,
      processWorkbook items resolve year month maxCol anchorIsDate wb1
        = some wb2
      ∧ (∀ r c, wb2.s931 r c = wb1.s931 r c)
      ∧ (∀ r c, wb2.ag r c = wb1.ag r c) := by
  cases hdet : detectAnalisisColumn wb0.ag year month maxCol anchorIsDate with
  | none =>
    simp only [processWorkbook, hdet] at h1
    exact Option.noConfusion h1
  | some col =>
    have hc2 : col ≠ 2 := hcol col hdet
    simp only [processWorkbook, hdet, Option.some.injEq] at h1
    subst h1
    have h7 : ∀ c2, writeAnalisisGeneral resolve col wb0.ag 7 c2
        = wb0.ag 7 c2 := by
      intro c2
      exact writeAGRows_get_other resolve col agDataRows wb0.ag 7 c2
        (Or.inl (by decide))
    have hdet1 : detectAnalisisColumn
        (Workbook.mk (write931 wb0.s931 items)
          (writeAnalisisGeneral resolve col wb0.ag)).ag
        year month maxCol anchorIsDate = some col := by
      show detectAnalisisColumn (writeAnalisisGeneral resolve col wb0.ag)
        year month maxCol anchorIsDate = some col
      rw [detectAnalisisColumn,
        find?_congr (List.range' 1 maxCol)
          (fun c2 => headerMatches year month
            (writeAnalisisGeneral resolve col wb0.ag 7 c2))
          (fun c2 => headerMatches year month (wb0.ag 7 c2))
          (fun x _ => by
            show headerMatches year month
                (writeAnalisisGeneral resolve col wb0.ag 7 x)
              = headerMatches year month (wb0.ag 7 x)
            rw [h7 x])]
      rw [detectAnalisisColumn] at hdet
      exact hdet
    refine ⟨Workbook.mk (write931 (write931 wb0.s931 items) items)
      (writeAnalisisGeneral resolve col
        (writeAnalisisGeneral resolve col wb0.ag)), ?_, ?_, ?_⟩
    · simp only [processWorkbook, hdet1]
    · intro r c
      exact write931_idem items hnd wb0.s931 r c
    · intro r c
      exact writeAGRows_idem resolve col hc2 agDataRows (by decide) wb0.ag r c

/-- Witness for C6: one period (2025-05) with one "931" entry and one
resolvable "Analisis General" row, written into a fresh template whose
header row carries the May 2025 date in column E — the second run
returns a workbook identical cell-for-cell to the first run's. -/
theorem build_year_rerun_idempotent_witness :
    ∃ wb2,
      processWorkbook [Item931.mk 3 4 (PyVal.vNum 7)]
        (fun row _ => if row = 8 then some (PyVal.vNum 100) else none)
        2025 5 10 true
        (Workbook.mk
          (write931 (fun _ _ => Cell.val PyVal.vNone)
            [Item931.mk 3 4 (PyVal.vNum 7)])
          (writeAnalisisGeneral
            (fun row _ => if row = 8 then some (PyVal.vNum 100) else none) 5
            (fun r c =>
              if r = 7 ∧ c = 5 then Cell.val (PyVal.vDate 2025 5 1)
              else if r = 8 ∧ c = 2 then Cell.val (PyVal.vStr "Sueldos")
              else Cell.val PyVal.vNone)))
        = some wb2
      ∧ (∀ r c, wb2.s931 r c =
          (Workbook.mk
            (write931 (fun _ _ => Cell.val PyVal.vNone)
              [Item931.mk 3 4 (PyVal.vNum 7)])
            (writeAnalisisGeneral
              (fun row _ => if row = 8 then some (PyVal.vNum 100) else none) 5
              (fun r c =>
                if r = 7 ∧ c = 5 then Cell.val (PyVal.vDate 2025 5 1)
                else if r = 8 ∧ c = 2 then Cell.val (PyVal.vStr "Sueldos")
                else Cell.val PyVal.vNone))).s931 r c)
      ∧ (∀ r c, wb2.ag r c =
          (Workbook.mk
            (write931 (fun _ _ => Cell.val PyVal.vNone)
              [Item931.mk 3 4 (PyVal.vNum 7)])
            (writeAnalisisGeneral
              (fun row _ => if row = 8 then some (PyVal.vNum 100) else none) 5
              (fun r c =>
                if r = 7 ∧ c = 5 then Cell.val (PyVal.vDate 2025 5 1)
                else if r = 8 ∧ c = 2 then Cell.val (PyVal.vStr "Sueldos")
                else Cell.val PyVal.vNone))).ag r c) :=
  build_year_rerun_idempotent [Item931.mk 3 4 (PyVal.vNum 7)]
    (fun row _ => if row = 8 then some (PyVal.vNum 100) else none)
    2025 5 10 true
    (Workbook.mk (fun _ _ => Cell.val PyVal.vNone)
      (fun r c =>
        if r = 7 ∧ c = 5 then Cell.val (PyVal.vDate 2025 5 1)
        else if r = 8 ∧ c = 2 then Cell.val (PyVal.vStr "Sueldos")
        else Cell.val PyVal.vNone))
    (Workbook.mk
      (write931 (fun _ _ => Cell.val PyVal.vNone)
        [Item931.mk 3 4 (PyVal.vNum 7)])
      (writeAnalisisGeneral
        (fun row _ => if row = 8 then some (PyVal.vNum 100) else none) 5
        (fun r c =>
          if r = 7 ∧ c = 5 then Cell.val (PyVal.vDate 2025 5 1)
          else if r = 8 ∧ c = 2 then Cell.val (PyVal.vStr "Sueldos")
          else Cell.val PyVal.vNone)))
    (by decide) rfl
    (by
      intro col h
      rw [show detectAnalisisColumn
          (Workbook.mk (fun _ _ => Cell.val PyVal.vNone)
            (fun r c =>
              if r = 7 ∧ c = 5 then Cell.val (PyVal.vDate 2025 5 1)
              else if r = 8 ∧ c = 2 then Cell.val (PyVal.vStr "Sueldos")
              else Cell.val PyVal.vNone)).ag 2025 5 10 true
          = (some 5 : Option Nat) from rfl] at h
      injection h with h5
      omega)

/-- C7 (code bug): `parse` is documented "Nunca lanza excepciones", and
the three extraction steps are indeed guarded — but the `extract_text`
call on line 62 is not: when both text-extraction backends raise (e.g. a
missing or corrupt PDF file), the exception propagates out of `parse`
instead of yielding a document with empty sections.  The second conjunct
shows the guarded steps do degrade to empty sub-sections when only they
fail. -/
theorem parse_asiento_extract_text_unguarded :
    parseAsiento
      (AsientoStepOutcomes.mk (.error "FileNotFoundError")
        (.error "FileNotFoundError") (.ok ([], [])) (.ok []) (.ok ([], [])))
      = .error "FileNotFoundError"
    ∧ parseAsiento
      (AsientoStepOutcomes.mk
        (.ok (["ASIENTO CONTABLE AL: 30-05-25"], 1)) (.error "unused")
        (.error "regex failure") (.error "coords failure")
        (.error "scan failure"))
      = .ok (AsientoParsed.mk "1.0.0" [] [] [] []
          ["ASIENTO CONTABLE AL: 30-05-25"] 1 "1.0.0") :=
  ⟨rfl, rfl⟩

/-- Witness for C8: three candidates — two sharing `json_path` `"a"`
(the first wins) and one non-numeric (a law-reference string, dropped).
-/
theorem indexer_invariants_witness :
    (((indexSource "f931" none
        [IndexCandidate.mk "a" (some "x") (PyVal.vNum 1) "1" none [],
         IndexCandidate.mk "a" (some "y") (PyVal.vNum 2) "2" none [],
         IndexCandidate.mk "b" (some "z") (PyVal.vStr "27.541") "27.541" none
           []]).items.map (fun it => it.json_path)).Nodup)
    ∧ (∀ p : String,
        (indexSource "f931" none
          [IndexCandidate.mk "a" (some "x") (PyVal.vNum 1) "1" none [],
           IndexCandidate.mk "a" (some "y") (PyVal.vNum 2) "2" none [],
           IndexCandidate.mk "b" (some "z") (PyVal.vStr "27.541") "27.541"
             none []]).items.find? (fun it => it.json_path = p) =
          ([IndexCandidate.mk "a" (some "x") (PyVal.vNum 1) "1" none [],
            IndexCandidate.mk "a" (some "y") (PyVal.vNum 2) "2" none [],
            IndexCandidate.mk "b" (some "z") (PyVal.vStr "27.541") "27.541"
              none []].filterMap makeItem).find?
            (fun it => it.json_path = p))
    ∧ (∀ it ∈ (indexSource "f931" none
          [IndexCandidate.mk "a" (some "x") (PyVal.vNum 1) "1" none [],
           IndexCandidate.mk "a" (some "y") (PyVal.vNum 2) "2" none [],
           IndexCandidate.mk "b" (some "z") (PyVal.vStr "27.541") "27.541"
             none []]).items,
        it.value.isNumeric = true ∧
        ∃ c ∈ [IndexCandidate.mk "a" (some "x") (PyVal.vNum 1) "1" none [],
           IndexCandidate.mk "a" (some "y") (PyVal.vNum 2) "2" none [],
           IndexCandidate.mk "b" (some "z") (PyVal.vStr "27.541") "27.541"
             none []], makeItem c = some it)
    ∧ (∀ c ∈ [IndexCandidate.mk "a" (some "x") (PyVal.vNum 1) "1" none [],
         IndexCandidate.mk "a" (some "y") (PyVal.vNum 2) "2" none [],
         IndexCandidate.mk "b" (some "z") (PyVal.vStr "27.541") "27.541"
           none []],
        c.value.isNumeric = false → makeItem c = none) :=
  indexer_invariants "f931" none
    [IndexCandidate.mk "a" (some "x") (PyVal.vNum 1) "1" none [],
     IndexCandidate.mk "a" (some "y") (PyVal.vNum 2) "2" none [],
     IndexCandidate.mk "b" (some "z") (PyVal.vStr "27.541") "27.541" none []]

/-- C1: the eight worked examples of §4.1 hold exactly, preserving the
absent-vs-zero distinction (`"$ -"`, `"-"`, `""` → absent; `"0,00"` → 0). -/
theorem normalize_number_worked_examples :
    normalize_number "27.380.973,46" = some (27380973.46 : ℚ)
    ∧ normalize_number "$ 642.515,41" = some (642515.41 : ℚ)
    ∧ normalize_number "$ -" = none
    ∧ normalize_number "-" = none
    ∧ normalize_number "0,00" = some 0
    ∧ normalize_number "9.371,04" = some (9371.04 : ℚ)
    ∧ normalize_number "" = none
    ∧ normalize_number "500.106,75" = some (500106.75 : ℚ) := by
  refine ⟨?_, ?_, by decide, by decide, ?_, ?_, by decide, ?_⟩
  · rw [show normalize_number "27.380.973,46" = some (mkRat 2738097346 100) from rfl]
    norm_num [Rat.mkRat_eq_div]
  · rw [show normalize_number "$ 642.515,41" = some (mkRat 64251541 100) from rfl]
    norm_num [Rat.mkRat_eq_div]
  · rw [show normalize_number "0,00" = some (mkRat 0 100) from rfl]
    norm_num [Rat.mkRat_eq_div]
  · rw [show normalize_number "9.371,04" = some (mkRat 937104 100) from rfl]
    norm_num [Rat.mkRat_eq_div]
  · rw [show normalize_number "500.106,75" = some (mkRat 50010675 100) from rfl]
    norm_num [Rat.mkRat_eq_div]

/-- C2 (code bug): `process_endpoint` does pass `existing_excel` as a
keyword argument of its `process_period(...)` call, but `process_period`
declares no such parameter, so the call cannot bind and raises
`TypeError` on every request — contradicting both the claim (the upload
is never passed into the invocation) and the pipeline's own documented
signature. -/
theorem process_endpoint_existing_excel_kwarg_rejected :
    "existing_excel" ∈ processEndpointKwargs
    ∧ "existing_excel" ∉ processPeriodParams
    ∧ pythonCallBinds processPeriodParams processEndpointKwargs = false := by
  decide

/-- C10: in `_run_parsers`, when several PDFs classify to the same
document type the per-type result map silently keeps only the last one
in list order; and `_detect_type` tests the `"931"` keyword before
`"borrador"`, so a filename containing both is classified `f931`. -/
theorem run_parsers_last_wins_and_931_priority {α : Type}
    (parseFn : String → String → α) (paths : List String) (t : String)
    (name : String)
    (h931 : listHas (pyLower name.data) "931".data = true) :
    pyGet (runParsers parseFn paths) t =
      ((paths.filter (fun p => detectType p = some t)).getLast?).map (parseFn t)
    ∧ detectType name = some "f931" := by
  constructor
  · rw [runParsers, runParsersAux_pyGet]
    cases hf : paths.filter (fun p => detectType p = some t) with
    | nil => simp [pyGet]
    | cons q qs =>
      have hs : (q :: qs).getLast?.isSome := by
        simp [List.getLast?_isSome]
      cases hlast : (q :: qs).getLast? with
      | none => rw [hlast] at hs; simp at hs
      | some r => simp [hlast]
  · simp [detectType, h931]

/-- C9: `OrchestratorA._execute_pipeline` begins every bundle by
deleting all `*.json` files from the shared output directory, so the
consolidated and manifest JSONs of every earlier period are gone after a
multi-period run; only the last processed period's pair survives
(together with that period's own intermediate stage JSONs). -/
theorem orchestratorA_only_last_period_jsons_survive
    (stageJsons : String → List String) (files0 : List String)
    (ps : List String) (last : String)
    (hlast : ps.getLast? = some last)
    (hstage : ∀ p ∈ ps.dropLast, consolidatedName p ∉ stageJsons last ∧
      manifestName p ∉ stageJsons last) :
    (consolidatedName last ∈ orchestratorRun stageJsons files0 ps
      ∧ manifestName last ∈ orchestratorRun stageJsons files0 ps)
    ∧ ∀ p ∈ ps.dropLast, p ≠ last →
        consolidatedName p ∉ orchestratorRun stageJsons files0 ps
        ∧ manifestName p ∉ orchestratorRun stageJsons files0 ps := by
  obtain ⟨X, hX⟩ := orchestratorRun_eq_last stageJsons ps files0 last hlast
  rw [hX]
  refine ⟨⟨by simp [executePipeline], by simp [executePipeline]⟩, ?_⟩
  intro p hmem hp
  constructor
  · intro h
    rcases List.mem_append.mp h with h1 | h2
    · rcases List.mem_append.mp h1 with h3 | h4
      · exact notMem_cleanOutputJsons (matchesJsonGlob_consolidatedName p) X h3
      · exact (hstage p hmem).1 h4
    · simp only [List.mem_cons, List.not_mem_nil, or_false] at h2
      rcases h2 with h5 | h5
      · exact hp (consolidatedName_injective h5)
      · exact consolidatedName_ne_manifestName p last h5
  · intro h
    rcases List.mem_append.mp h with h1 | h2
    · rcases List.mem_append.mp h1 with h3 | h4
      · exact notMem_cleanOutputJsons (matchesJsonGlob_manifestName p) X h3
      · exact (hstage p hmem).2 h4
    · simp only [List.mem_cons, List.not_mem_nil, or_false] at h2
      rcases h2 with h5 | h5
      · exact consolidatedName_ne_manifestName last p h5.symm
      · exact hp (manifestName_injective h5)

/-- Witness for C9: two periods `2025-04`, `2025-05` run in order —
`consolidated_2025-05.json` and `sources_manifest_2025-05.json` remain,
while `consolidated_2025-04.json` and `sources_manifest_2025-04.json`
are deleted by the second bundle's cleanup. -/
theorem orchestratorA_only_last_period_jsons_survive_witness :
    (consolidatedName "2025-05" ∈
        orchestratorRun (fun p => [p ++ "_f931.json", "resumen.json"]) []
          ["2025-04", "2025-05"]
      ∧ manifestName "2025-05" ∈
        orchestratorRun (fun p => [p ++ "_f931.json", "resumen.json"]) []
          ["2025-04", "2025-05"])
    ∧ ∀ p ∈ (["2025-04", "2025-05"] : List String).dropLast, p ≠ "2025-05" →
        consolidatedName p ∉
          orchestratorRun (fun p => [p ++ "_f931.json", "resumen.json"]) []
            ["2025-04", "2025-05"]
        ∧ manifestName p ∉
          orchestratorRun (fun p => [p ++ "_f931.json", "resumen.json"]) []
            ["2025-04", "2025-05"] :=
  orchestratorA_only_last_period_jsons_survive
    (fun p => [p ++ "_f931.json", "resumen.json"]) []
    ["2025-04", "2025-05"] "2025-05" (by decide) (by decide)

/-- Witness for C10 at a concrete input: `borrador_931_05-2025.pdf`
contains both keywords and classifies as `f931`; of the two files that
classify as `f931`, the later one in list order supplies the stored
parse result. -/
theorem run_parsers_last_wins_and_931_priority_witness :
    listHas (pyLower ("borrador_931_05-2025.pdf" : String).data) "931".data = true
    ∧ (pyGet (runParsers (fun _ p => p)
          ["Asiento_05-2025.pdf", "F931_05-2025.pdf", "borrador_931_05-2025.pdf"]) "f931" =
        ((["Asiento_05-2025.pdf", "F931_05-2025.pdf", "borrador_931_05-2025.pdf"].filter
            (fun p => detectType p = some "f931")).getLast?).map (fun p => p)
      ∧ detectType "borrador_931_05-2025.pdf" = some "f931") :=
  ⟨by decide,
   run_parsers_last_wins_and_931_priority (fun _ p => p)
     ["Asiento_05-2025.pdf", "F931_05-2025.pdf", "borrador_931_05-2025.pdf"]
     "f931" "borrador_931_05-2025.pdf" (by decide)⟩

end Auditoria
